import Mathlib

/-!
Verification development for the mass-attacher engine (`src/mass_attacher.c`).

The C source is shallowly embedded: each C function that the claims touch is
translated into an executable Lean definition of the same name.  External
collaborators that the engine only calls through an interface (kallsyms lookup,
the shell-glob matcher `full_glob_matches`, the kernel BPF syscalls, BTF data)
are supplied through an `Env` record of oracles, so theorems quantify over
every possible behaviour of those collaborators.
-/

set_option maxHeartbeats 1000000
set_option maxRecDepth 8000

namespace MassAttach

/-! ## BTF type model

Kernel BTF metadata is modelled as a map from type ids to type kinds.
Id 0 denotes `void`, as in BTF.  Only the kinds inspected by
`is_arg_type_ok` / `is_ret_type_ok` / `is_func_type_ok` / `func_arg_cnt`
are distinguished; everything else is `other`. -/

inductive BtfType where
  | void
  | int
  | enum
  | ptr (target : Nat)
  | structT
  | unionT
  | modifier (target : Nat)   -- const / volatile / restrict
  | typedefT (target : Nat)
  | funcProto (ret : Nat) (params : List Nat)  -- param type id 0 = vararg marker
  | func (proto : Nat)
  | other
  deriving DecidableEq, Repr

/-- A BTF instance: type id → type.  The id-0-is-void convention is part of
the wellformedness we assume of the kernel-provided table. -/
def Btf := Nat → BtfType

/-- The `while (btf_is_mod(t) || btf_is_typedef(t)) t = btf__type_by_id(btf, t->type);`
loops of `is_arg_type_ok` / `is_ret_type_ok`.  Real BTF chains are acyclic and
finite; the loop is embedded with explicit fuel, returning the resolved id. -/
def skipModsAndTypedefs (btf : Btf) : Nat → Nat → Nat
  | 0, id => id
  | fuel + 1, id =>
    match btf id with
    | .modifier t => skipModsAndTypedefs btf fuel t
    | .typedefT t => skipModsAndTypedefs btf fuel t
    | _ => id

/-- `is_arg_type_ok` (mass_attacher.c:1063): after stripping modifiers and
typedefs the argument type must be an integer, a pointer, or an enum. -/
def is_arg_type_ok (btf : Btf) (fuel : Nat) (id : Nat) : Bool :=
  match btf (skipModsAndTypedefs btf fuel id) with
  | .int => true
  | .ptr _ => true
  | .enum => true
  | _ => false

/-- `is_ret_type_ok` (mass_attacher.c:1072): after stripping modifiers and
typedefs, int/enum are fine; otherwise only a pointer to void (`t->type == 0`)
or to a struct/union is accepted. -/
def is_ret_type_ok (btf : Btf) (fuel : Nat) (id : Nat) : Bool :=
  match btf (skipModsAndTypedefs btf fuel id) with
  | .int => true
  | .enum => true
  | .ptr target =>
    if target = 0 then
      true
    else
      match btf target with
      | .structT => true
      | .unionT => true
      | _ => false
  | _ => false

/-- `is_ret_void` (mass_attacher.c:1096): the FUNC's proto has return id 0. -/
def is_ret_void (btf : Btf) (id : Nat) : Bool :=
  match btf id with
  | .func protoId =>
    match btf protoId with
    | .funcProto ret _ => ret = 0
    | _ => false
  | _ => false

/-- `func_arg_cnt` (mass_attacher.c:1050): 0 when no BTF info (`id == 0`),
otherwise the vlen of the FUNC's prototype. -/
def func_arg_cnt (btf : Btf) (id : Nat) : Nat :=
  if id = 0 then 0
  else
    match btf id with
    | .func protoId =>
      match btf protoId with
      | .funcProto _ params => params.length
      | _ => 0
    | _ => 0

/-- `MAX_FUNC_ARG_CNT` (mass_attacher.c:82). -/
def MAX_FUNC_ARG_CNT : Nat := 6

/-- `is_func_type_ok` (mass_attacher.c:1105), taking the BTF id of the FUNC
entry.  The rejection of void-returning functions is commented out in the
source, so `ret = 0` goes straight through to the argument loop. -/
def is_func_type_ok (btf : Btf) (fuel : Nat) (funcId : Nat) : Bool :=
  match btf funcId with
  | .func protoId =>
    match btf protoId with
    | .funcProto ret params =>
      if params.length > MAX_FUNC_ARG_CNT then
        false
      else if ret ≠ 0 && !is_ret_type_ok btf fuel ret then
        false
      else
        params.all (fun p => p ≠ 0 && is_arg_type_ok btf fuel p)
    | _ => false
  | _ => false

/-! ### Claim C3: spec-side compatibility predicate

Written from the spec's words (§4.3a), to be compared with the source-side
`is_func_type_ok`. -/

/-- Spec §4.3a, return-type clause: void, or (after stripping modifiers and
typedefs) an integer/enum, or a pointer to void or to a struct/union. -/
def SpecRetOk (btf : Btf) (fuel : Nat) (ret : Nat) : Prop :=
  ret = 0 ∨
  btf (skipModsAndTypedefs btf fuel ret) = .int ∨
  btf (skipModsAndTypedefs btf fuel ret) = .enum ∨
  (∃ t, btf (skipModsAndTypedefs btf fuel ret) = .ptr t ∧
    (t = 0 ∨ btf t = .structT ∨ btf t = .unionT))

/-- Spec §4.3a, argument clause: after stripping modifiers/typedefs the
argument is an integer, enum, or pointer; a param id of 0 is the variadic
marker and is rejected. -/
def SpecArgOk (btf : Btf) (fuel : Nat) (p : Nat) : Prop :=
  p ≠ 0 ∧
  (btf (skipModsAndTypedefs btf fuel p) = .int ∨
   btf (skipModsAndTypedefs btf fuel p) = .enum ∨
   (∃ t, btf (skipModsAndTypedefs btf fuel p) = .ptr t))

/-- Spec §4.3a in full, over a FUNC BTF id: the entry is a function whose
prototype has at most 6 parameters, a compatible return type, and only
compatible non-variadic parameters. -/
def TrampolineCompatible (btf : Btf) (fuel : Nat) (funcId : Nat) : Prop :=
  ∃ protoId ret params,
    btf funcId = .func protoId ∧
    btf protoId = .funcProto ret params ∧
    params.length ≤ 6 ∧
    SpecRetOk btf fuel ret ∧
    ∀ p ∈ params, SpecArgOk btf fuel p

theorem specRetOk_iff (btf : Btf) (fuel ret : Nat) :
    SpecRetOk btf fuel ret ↔ (ret = 0 ∨ is_ret_type_ok btf fuel ret = true) := by
  unfold SpecRetOk is_ret_type_ok
  split <;> rename_i heq <;> simp_all <;>
    (try (split <;> rename_i heq2 <;> simp_all)) <;>
    (try (split <;> rename_i heq3 <;> simp_all))

theorem specArgOk_iff (btf : Btf) (fuel p : Nat) :
    SpecArgOk btf fuel p ↔ (p ≠ 0 ∧ is_arg_type_ok btf fuel p = true) := by
  unfold SpecArgOk is_arg_type_ok
  split <;> rename_i heq <;> simp_all

/-- C3: in trampoline mode a candidate passes `is_func_type_ok` exactly when
the spec's §4.3a compatibility predicate holds: argument count at most 6,
return type void / integer / enum / pointer to void or struct/union (after
stripping modifiers and typedefs), every argument an integer, enum or pointer,
and no variadic marker — hence every accepted function has argument count in
[0,6] and is not variadic. -/
theorem is_func_type_ok_iff_spec (btf : Btf) (fuel funcId : Nat) :
    is_func_type_ok btf fuel funcId = true ↔ TrampolineCompatible btf fuel funcId := by
  unfold is_func_type_ok TrampolineCompatible
  split <;> rename_i hf
  case _ protoId =>
    split <;> rename_i hp
    case _ ret params =>
      constructor
      · intro h
        split at h
        · exact absurd h (by simp)
        · next hlen =>
          split at h
          · exact absurd h (by simp)
          · next hret =>
            refine ⟨protoId, ret, params, hf, hp, ?_, ?_, ?_⟩
            · unfold MAX_FUNC_ARG_CNT at hlen; omega
            · rw [specRetOk_iff]
              by_cases h0 : ret = 0
              · exact Or.inl h0
              · right
                by_contra hbad
                simp [h0, hbad] at hret
            · intro p hpmem
              rw [specArgOk_iff]
              have := List.all_eq_true.mp h p hpmem
              simpa using this
      · rintro ⟨pid, retB, paramsB, hfe, hpe, hlen, hret, hargs⟩
        rw [hf] at hfe
        cases hfe
        rw [hp] at hpe
        cases hpe
        have hlenB : ¬ params.length > MAX_FUNC_ARG_CNT := by
          unfold MAX_FUNC_ARG_CNT; omega
        rw [if_neg hlenB]
        rw [specRetOk_iff] at hret
        have hretc : ¬ ((ret ≠ 0 : Bool) && !is_ret_type_ok btf fuel ret) = true := by
          rcases hret with h0 | hok
          · simp [h0]
          · simp [hok]
        rw [if_neg hretc]
        refine List.all_eq_true.mpr ?_
        intro p hpmem
        have := (specArgOk_iff btf fuel p).mp (hargs p hpmem)
        simpa using this
    all_goals
      constructor
      · intro h; simp at h
      · rintro ⟨pid, retB, paramsB, hfe, hpe, _⟩
        rw [hf] at hfe
        cases hfe
        simp_all
  all_goals
    constructor
    · intro h; simp at h
    · rintro ⟨pid, retB, paramsB, hfe, _⟩
      simp_all

/-! ## Engine data model

Mirrors `struct mass_attacher` and the structures it owns.  Fields that only
drive logging (`verbose`, `debug`, `debug_extra`) are omitted: they never
change control flow other than printing.  `func_cnt` is represented by
`func_infos.length` (the C code keeps the two in lock step: `func_cnt` is
incremented exactly when an entry is appended to `func_infos`). -/

/-- A `struct ksym` as consumed here: name, address, size, owning module. -/
structure Ksym where
  addr : Nat
  size : Nat
  name : String
  mod : Option String    -- `module` in C
  deriving DecidableEq, Repr

/-- One allow/deny rule (the anonymous struct in `mass_attacher`):
function-name glob, optional module glob, match counter. -/
structure GlobSpec where
  glob : String
  mod_glob : Option String
  match_cnt : Nat        -- `matches` in C
  deriving DecidableEq, Repr

/-- `struct kprobe_info`: one entry of the probe-able-function index. -/
structure KprobeInfo where
  name : String
  used : Bool
  deriving DecidableEq, Repr

/-- `struct mass_attacher_func_info` as used by mass_attacher.c: discovery
fields plus the per-function resource handles.  fds are 0 when unset (the C
structs are `memset` to zero); link pointers are `none` when unset. -/
structure FuncInfo where
  addr : Nat
  size : Nat
  name : String
  mod : Option String    -- `module` in C
  arg_cnt : Nat
  btf_id : Nat
  fentry_prog_fd : Nat
  fexit_prog_fd : Nat
  fentry_link_fd : Nat
  fexit_link_fd : Nat
  kentry_link : Option Nat
  kexit_link : Option Nat
  deriving DecidableEq, Repr

/-- `enum mass_attacher_mode` as used by mass_attacher.c. -/
inductive AttachMode where
  | fentry
  | kprobeSingle
  | kprobeMulti
  deriving DecidableEq, Repr

/-- `struct mass_attacher` (mass_attacher.c:93). -/
structure MassAttacher where
  ready : Bool                          -- skel->bss->ready
  vmlinux_btf : Option Unit             -- owned BTF handle
  kentry_multi_link : Option Nat
  kexit_multi_link : Option Nat
  fentries_insns : List (Option Unit)   -- 7 slots; never populated in this file
  fexits_insns : List (Option Unit)
  fexit_voids_insns : List (Option Unit)
  attach_mode : AttachMode
  use_fentries : Bool
  use_kprobe_multi : Bool
  dry_run : Bool
  max_func_cnt : Nat
  kret_ip_off : Int
  has_bpf_get_func_ip : Bool
  has_fexit_sleep_fix : Bool
  has_fentry_protection : Bool
  has_bpf_cookie : Bool
  has_kprobe_multi : Bool
  func_infos : List FuncInfo
  func_info_cnts : List Nat             -- 7 slots
  func_info_id_for_arg_cnt : List Nat   -- 7 slots
  kprobes : List KprobeInfo
  func_skip_cnt : Nat
  allow_globs : List GlobSpec
  deny_globs : List GlobSpec
  ip_to_id_max_entries : Nat            -- bpf_map__set_max_entries(ip_to_id)
  deriving DecidableEq, Repr

/-- Feature flags produced by `calibrate_features` (read from the calibration
skeleton, i.e. from the kernel): part of the environment. -/
structure Features where
  kret_ip_off : Int
  has_bpf_get_func_ip : Bool
  has_fexit_sleep_fix : Bool
  has_fentry_protection : Bool
  has_bpf_cookie : Bool
  has_kprobe_multi : Bool
  deriving DecidableEq, Repr

/-- Identification of one batched (kprobe-multi) attach request: either by
address list or by symbol list, with per-function cookies. -/
inductive MultiSpec where
  | byAddrs (addrs : List Nat) (cookies : List Nat)
  | bySyms (syms : List String) (cookies : List Nat)
  deriving DecidableEq, Repr

/-- One kernel-visible call issued during load/attach. -/
inductive KernCall where
  | skelLoad
  | mapUpdate (addr : Nat) (idx : Nat)
  | progClone (dir : Nat) (arg_cnt : Nat) (btf_id : Nat)  -- dir 0=fentry 1=fexit 2=fexit_void
  | rawTpOpen (prog_fd : Nat)
  | kprobeAttach (retprobe : Bool) (func : String)
  | kprobeMulti (retprobe : Bool) (spec : MultiSpec)
  deriving DecidableEq, Repr

/-- The environment: every external collaborator the engine calls.  Oracles
model the kernel's and libbpf's possible answers; theorems quantify over
arbitrary environments. -/
structure Env where
  ksyms : String → Option Ksym                                     -- ksyms__get_symbol
  full_glob_matches : String → Option String → String → Option String → Bool
  func_filter : Option (String → Nat → Bool)                       -- opts->func_filter
  btf : Btf
  fuel : Nat
  features : Features                                              -- calibrate_features
  kprobe_names : List String                                       -- available_filter_functions
  btf_funcs : List (String × Nat)                                  -- FUNC entries of vmlinux BTF, in id order
  skel_load_ok : Bool
  clone_prog : Nat → Nat → Nat → Option Nat                        -- dir, arg_cnt, btf_id → prog fd
  raw_tp_open : Nat → Option Nat                                   -- prog fd → link fd
  kprobe_attach : Bool → String → Option Nat                       -- retprobe, func → link
  kprobe_multi : Bool → MultiSpec → Option Nat                     -- retprobe, spec → link
  errno : Int                                                      -- -errno reported on syscall failure

/-! ## Glob rule management -/

/-- `enforced_deny_globs` (mass_attacher.c:47). -/
def enforced_deny_globs : List String :=
  [ "bpf_get_smp_processor_id",
    "migrate_enable",
    "migrate_disable",
    "rcu_read_lock*",
    "rcu_read_unlock*",
    "bpf_spin_lock",
    "bpf_spin_unlock",
    "__bpf_prog_enter*",
    "__bpf_prog_exit*",
    "__bpf_tramp_enter*",
    "__bpf_tramp_exit*",
    "update_prog_stats",
    "inc_misses_counter",
    "bpf_prog_start_time" ]

/-- `sleepable_deny_globs` (mass_attacher.c:71). -/
def sleepable_deny_globs : List String :=
  [ "*_sys_select",
    "*_sys_pselect6*",
    "*_sys_epoll_wait",
    "*_sys_epoll_pwait",
    "*_sys_poll*",
    "*_sys_ppoll*",
    "*_sys_nanosleep*",
    "*_sys_clock_nanosleep*" ]

/-- `is_valid_glob` (mass_attacher.c:234): non-empty and not the unsupported
recursive form. -/
def is_valid_glob (g : String) : Bool :=
  g.length ≠ 0 && g ≠ "**"

/-- `mass_attacher__allow_glob` (mass_attacher.c:257): validate, then append
one allow rule with a zeroed match counter.  `-EINVAL = -22`. -/
def mass_attacher__allow_glob (att : MassAttacher) (glob : String)
    (mod_glob : Option String) : MassAttacher × Option Int :=
  if !is_valid_glob glob then (att, some (-22))
  else if (match mod_glob with
           | some m => !is_valid_glob m
           | none => false) then (att, some (-22))
  else
    ({ att with allow_globs := att.allow_globs ++
        [{ glob := glob, mod_glob := mod_glob, match_cnt := 0 }] }, none)

/-- `mass_attacher__deny_glob` (mass_attacher.c:290): same, onto the deny
list. -/
def mass_attacher__deny_glob (att : MassAttacher) (glob : String)
    (mod_glob : Option String) : MassAttacher × Option Int :=
  if !is_valid_glob glob then (att, some (-22))
  else if (match mod_glob with
           | some m => !is_valid_glob m
           | none => false) then (att, some (-22))
  else
    ({ att with deny_globs := att.deny_globs ++
        [{ glob := glob, mod_glob := mod_glob, match_cnt := 0 }] }, none)

/-- Fold a list of deny globs (no module globs), aborting on first error:
the loop of `mass_attacher__new` / the sleepable loop of prepare. -/
def addDenyGlobs : MassAttacher → List String → MassAttacher × Option Int
  | att, [] => (att, none)
  | att, g :: gs =>
    match mass_attacher__deny_glob att g none with
    | (att2, none) => addDenyGlobs att2 gs
    | (att2, some e) => (att2, some e)

/-- `struct mass_attacher_opts` as consumed by `mass_attacher__new`
(logging fields omitted; `func_filter` lives in `Env`). -/
structure Opts where
  max_func_cnt : Nat
  dry_run : Bool
  attach_mode : AttachMode
  deriving DecidableEq, Repr

/-- The zeroed `calloc(1, sizeof(*att))` state with opts copied in
(mass_attacher.c:155-175). -/
def initAttacher (opts : Opts) : MassAttacher :=
  { ready := false
    vmlinux_btf := none
    kentry_multi_link := none
    kexit_multi_link := none
    fentries_insns := List.replicate 7 none
    fexits_insns := List.replicate 7 none
    fexit_voids_insns := List.replicate 7 none
    attach_mode := opts.attach_mode
    use_fentries := opts.attach_mode = AttachMode.fentry
    use_kprobe_multi := false
    dry_run := opts.dry_run
    max_func_cnt := opts.max_func_cnt
    kret_ip_off := 0
    has_bpf_get_func_ip := false
    has_fexit_sleep_fix := false
    has_fentry_protection := false
    has_bpf_cookie := false
    has_kprobe_multi := false
    func_infos := []
    func_info_cnts := List.replicate 7 0
    func_info_id_for_arg_cnt := List.replicate 7 0
    kprobes := []
    func_skip_cnt := 0
    allow_globs := []
    deny_globs := []
    ip_to_id_max_entries := 0 }

/-- The field values of the `calloc(1, sizeof(*att))`-zeroed engine, as an
`Opts` record: zero maximum, no dry run, and the zero value of
`enum mass_attacher_mode` (its first, automatic kprobe constant; the enum's
header is not part of this repository). -/
def zeroedOpts : Opts :=
  { max_func_cnt := 0, dry_run := false, attach_mode := AttachMode.kprobeMulti }

/-- `mass_attacher__new` (mass_attacher.c:146): zeroed state, then — only
when opts were supplied — the opts are copied in and the enforced deny globs
are installed before anything else.  With NULL opts the constructor returns
the zeroed engine immediately (mass_attacher.c:162-163), installing no deny
glob at all. -/
def mass_attacher__new : Option Opts → MassAttacher × Option Int
  | none => (initAttacher zeroedOpts, none)
  | some opts => addDenyGlobs (initAttacher opts) enforced_deny_globs

/-! ## Candidate filtering: `prepare_func` -/

/-- The deny/allow loops of `prepare_func` (mass_attacher.c:573, 591): walk
the rule list in order; on the first rule whose `full_glob_matches` succeeds,
increment that rule's match counter and stop.  `none` means no rule
matched. -/
def bumpFirstMatch (env : Env) (name : String) (mod : Option String) :
    List GlobSpec → Option (List GlobSpec)
  | [] => none
  | g :: gs =>
    if env.full_glob_matches g.glob g.mod_glob name mod then
      some ({ g with match_cnt := g.match_cnt + 1 } :: gs)
    else
      (bumpFirstMatch env name mod gs).map (g :: ·)

/-- First index satisfying a predicate. -/
def find_idx (p : α → Bool) : List α → Option Nat
  | [] => none
  | a :: l => if p a then some 0 else (find_idx p l).map (· + 1)

/-- `find_kprobe` (mass_attacher.c:1041): `bsearch` by name over the sorted
`kprobes` array, modelled as first-match search (the array is sorted and
searched by string equality, so membership semantics coincide). -/
def find_kprobe (att : MassAttacher) (name : String) : Option Nat :=
  find_idx (fun k => k.name = name) att.kprobes

/-- `att->kprobes[kprobe_idx].used = true` (mass_attacher.c:620). -/
def markUsed (ks : List KprobeInfo) (i : Nat) : List KprobeInfo :=
  match ks[i]? with
  | some k => ks.set i { k with used := true }
  | none => ks

/-- `is_func_type_ok` lifted to the nullable `btf_type *t` parameter of
`prepare_func`.  The C code only evaluates it when `use_fentries`, and in that
mode every candidate comes from the BTF pass with a non-NULL `t`. -/
def is_func_type_ok_opt (env : Env) (t : Option Nat) : Bool :=
  match t with
  | some fid => is_func_type_ok env.btf env.fuel fid
  | none => false

/-- The custom-filter call of `prepare_func` (mass_attacher.c:629): skip when
a filter is configured and rejects the candidate. -/
def func_filter_rejects (env : Env) (name : String) (cnt : Nat) : Bool :=
  match env.func_filter with
  | some f => !f name cnt
  | none => false

/-- The second half of `prepare_func` (mass_attacher.c:613-671), from the
probe-able-index lookup onward, split out so the filter chain can be reasoned
about in two stages.  `att` here already carries the allow-step updates. -/
def prepare_func_from_index (env : Env) (att : MassAttacher) (func_name : String)
    (t : Option Nat) (btf_id : Nat) (ksym : Ksym) : MassAttacher × Option Int :=
  match find_kprobe att func_name with
  | none => ({ att with func_skip_cnt := att.func_skip_cnt + 1 }, none)
  | some kprobe_idx =>
    let att2 := { att with kprobes := markUsed att.kprobes kprobe_idx }
    if att2.use_fentries && !is_func_type_ok_opt env t then
      ({ att2 with func_skip_cnt := att2.func_skip_cnt + 1 }, none)
    else if func_filter_rejects env func_name att2.func_infos.length then
      ({ att2 with func_skip_cnt := att2.func_skip_cnt + 1 }, none)
    else if att2.max_func_cnt ≠ 0 ∧ att2.func_infos.length ≥ att2.max_func_cnt then
      (att2, some (-7))
    else
      let arg_cnt := func_arg_cnt env.btf btf_id
      let finfo : FuncInfo :=
        { addr := ksym.addr, size := ksym.size, name := ksym.name,
          mod := ksym.mod, arg_cnt := arg_cnt, btf_id := btf_id,
          fentry_prog_fd := 0, fexit_prog_fd := 0,
          fentry_link_fd := 0, fexit_link_fd := 0,
          kentry_link := none, kexit_link := none }
      let att3 :=
        if att2.use_fentries then
          { att2 with
            func_info_cnts :=
              att2.func_info_cnts.set arg_cnt
                (att2.func_info_cnts.getD arg_cnt 0 + 1),
            func_info_id_for_arg_cnt :=
              if att2.func_info_id_for_arg_cnt.getD arg_cnt 0 = 0 then
                att2.func_info_id_for_arg_cnt.set arg_cnt att2.func_infos.length
              else att2.func_info_id_for_arg_cnt }
        else att2
      ({ att3 with func_infos := att3.func_infos ++ [finfo] }, none)

/-- `prepare_func` (mass_attacher.c:556).  Returns the updated engine state
and `some errno` on fatal error (`-E2BIG = -7` at capacity), `none` on
success — including every per-candidate skip, which only bumps
`func_skip_cnt`. -/
def prepare_func (env : Env) (att : MassAttacher) (func_name : String)
    (t : Option Nat) (btf_id : Nat) : MassAttacher × Option Int :=
  match env.ksyms func_name with
  | none => ({ att with func_skip_cnt := att.func_skip_cnt + 1 }, none)
  | some ksym =>
    -- any deny glob forces skipping a function
    match bumpFirstMatch env func_name ksym.mod att.deny_globs with
    | some denyB =>
      ({ att with deny_globs := denyB, func_skip_cnt := att.func_skip_cnt + 1 }, none)
    | none =>
      -- if any allow glob is specified, function has to match one of them
      match (if att.allow_globs.isEmpty then some att.allow_globs
             else bumpFirstMatch env func_name ksym.mod att.allow_globs) with
      | none => ({ att with func_skip_cnt := att.func_skip_cnt + 1 }, none)
      | some allowB =>
        prepare_func_from_index env { att with allow_globs := allowB }
          func_name t btf_id ksym

/-! ### Claim C1: fixed filter order, short-circuit on first failure

`SpecFilterOutcome` is written from the spec's words (§4.3): the per-candidate
verdict obtained by consulting the filters in the documented fixed order —
symbol resolution, deny glob, allow glob (only when allow rules exist),
probe-able-index membership, prototype compatibility (trampoline mode only),
custom predicate, capacity.  It depends only on the engine state and the
candidate, never on the candidate's position in the enumeration. -/

inductive FilterOutcome where
  | skipSymbol
  | skipDeny
  | skipAllow
  | skipIndex
  | skipProto
  | skipPred
  | capacity
  | accepted
  deriving DecidableEq, Repr

/-- Whether an outcome is a per-candidate skip. -/
def FilterOutcome.isSkip : FilterOutcome → Bool
  | .skipSymbol | .skipDeny | .skipAllow | .skipIndex | .skipProto | .skipPred => true
  | .capacity | .accepted => false

/-- The spec-ordered verdict from the index filter onward. -/
def specTailOutcome (env : Env) (att : MassAttacher) (name : String)
    (t : Option Nat) : FilterOutcome :=
  if !att.kprobes.any (fun k => k.name = name) then
    .skipIndex
  else if att.use_fentries && !is_func_type_ok_opt env t then
    .skipProto
  else if func_filter_rejects env name att.func_infos.length then
    .skipPred
  else if att.max_func_cnt ≠ 0 ∧ att.func_infos.length ≥ att.max_func_cnt then
    .capacity
  else
    .accepted

/-- The spec-ordered verdict for one candidate. -/
def specFilterOutcome (env : Env) (att : MassAttacher) (name : String)
    (t : Option Nat) : FilterOutcome :=
  match env.ksyms name with
  | none => .skipSymbol
  | some ksym =>
    if att.deny_globs.any (fun g => env.full_glob_matches g.glob g.mod_glob name ksym.mod) then
      .skipDeny
    else if !att.allow_globs.isEmpty &&
        !att.allow_globs.any (fun g => env.full_glob_matches g.glob g.mod_glob name ksym.mod) then
      .skipAllow
    else
      specTailOutcome env att name t

theorem bumpFirstMatch_isSome (env : Env) (name : String) (mod : Option String)
    (gs : List GlobSpec) :
    (bumpFirstMatch env name mod gs).isSome =
      gs.any (fun g => env.full_glob_matches g.glob g.mod_glob name mod) := by
  induction gs with
  | nil => rfl
  | cons g rest ih =>
    unfold bumpFirstMatch
    by_cases h : env.full_glob_matches g.glob g.mod_glob name mod <;>
      simp [h, ih]

theorem find_idx_isSome (p : α → Bool) (l : List α) :
    (find_idx p l).isSome = l.any p := by
  induction l with
  | nil => rfl
  | cons a rest ih =>
    unfold find_idx
    by_cases h : p a <;> simp [h, ih]

/-- The second-stage analogue of the C1 theorem, over
`prepare_func_from_index` and `specTailOutcome`. -/
theorem prepare_func_from_index_spec (env : Env) (att : MassAttacher)
    (name : String) (t : Option Nat) (bid : Nat) (ksym : Ksym) :
    ((specTailOutcome env att name t).isSkip = true →
      (prepare_func_from_index env att name t bid ksym).2 = none ∧
      (prepare_func_from_index env att name t bid ksym).1.func_skip_cnt
        = att.func_skip_cnt + 1 ∧
      (prepare_func_from_index env att name t bid ksym).1.func_infos = att.func_infos) ∧
    (specTailOutcome env att name t = .capacity →
      (prepare_func_from_index env att name t bid ksym).2 = some (-7) ∧
      (prepare_func_from_index env att name t bid ksym).1.func_infos = att.func_infos ∧
      (prepare_func_from_index env att name t bid ksym).1.func_skip_cnt
        = att.func_skip_cnt) ∧
    (specTailOutcome env att name t = .accepted →
      (prepare_func_from_index env att name t bid ksym).2 = none ∧
      (prepare_func_from_index env att name t bid ksym).1.func_skip_cnt
        = att.func_skip_cnt ∧
      (prepare_func_from_index env att name t bid ksym).1.func_infos.length
        = att.func_infos.length + 1) := by
  unfold prepare_func_from_index specTailOutcome
  cases hki : find_kprobe att name with
  | none =>
    have hidx : att.kprobes.any (fun k => k.name = name) = false := by
      have h := find_idx_isSome (fun k : KprobeInfo => decide (k.name = name)) att.kprobes
      unfold find_kprobe at hki
      rw [hki] at h
      exact h.symm
    simp [hidx, FilterOutcome.isSkip]
  | some idx =>
    have hidx : att.kprobes.any (fun k => k.name = name) = true := by
      have h := find_idx_isSome (fun k : KprobeInfo => decide (k.name = name)) att.kprobes
      unfold find_kprobe at hki
      rw [hki] at h
      exact h.symm
    by_cases hft : (att.use_fentries && !is_func_type_ok_opt env t) = true
    · simp [hidx, hft, FilterOutcome.isSkip]
    · by_cases hpred : func_filter_rejects env name att.func_infos.length = true
      · simp [hidx, hft, hpred, FilterOutcome.isSkip]
      · by_cases hcap : att.max_func_cnt ≠ 0 ∧ att.func_infos.length ≥ att.max_func_cnt
        · simp [hidx, hft, hpred, hcap, FilterOutcome.isSkip]
        · by_cases huf : att.use_fentries = true
          · have hok : is_func_type_ok_opt env t = true := by
              cases h : is_func_type_ok_opt env t
              · exact absurd (by simp [huf, h]) hft
              · rfl
            simp [hidx, hpred, hcap, huf, hok, FilterOutcome.isSkip]
          · simp [hidx, hft, hpred, hcap, huf, FilterOutcome.isSkip]

/-- Helper: the full per-candidate case analysis of `prepare_func` against
the spec-ordered verdict, shared between the filter-order and capacity
claims. -/
theorem prepare_func_outcome_cases (env : Env) (att : MassAttacher)
    (name : String) (t : Option Nat) (bid : Nat) :
    ((specFilterOutcome env att name t).isSkip = true →
      (prepare_func env att name t bid).2 = none ∧
      (prepare_func env att name t bid).1.func_skip_cnt = att.func_skip_cnt + 1 ∧
      (prepare_func env att name t bid).1.func_infos = att.func_infos) ∧
    (specFilterOutcome env att name t = .capacity →
      (prepare_func env att name t bid).2 = some (-7) ∧
      (prepare_func env att name t bid).1.func_infos = att.func_infos ∧
      (prepare_func env att name t bid).1.func_skip_cnt = att.func_skip_cnt) ∧
    (specFilterOutcome env att name t = .accepted →
      (prepare_func env att name t bid).2 = none ∧
      (prepare_func env att name t bid).1.func_skip_cnt = att.func_skip_cnt ∧
      (prepare_func env att name t bid).1.func_infos.length
        = att.func_infos.length + 1) := by
  unfold prepare_func specFilterOutcome
  cases hk : env.ksyms name with
  | none => simp [FilterOutcome.isSkip]
  | some ksym =>
    cases hd : bumpFirstMatch env name ksym.mod att.deny_globs with
    | some denyB =>
      have hdeny : att.deny_globs.any
          (fun g => env.full_glob_matches g.glob g.mod_glob name ksym.mod) = true := by
        have h := bumpFirstMatch_isSome env name ksym.mod att.deny_globs
        rw [hd] at h
        exact h.symm
      simp [hd, hdeny, FilterOutcome.isSkip]
    | none =>
      have hdeny : att.deny_globs.any
          (fun g => env.full_glob_matches g.glob g.mod_glob name ksym.mod) = false := by
        have h := bumpFirstMatch_isSome env name ksym.mod att.deny_globs
        rw [hd] at h
        exact h.symm
      by_cases hae : att.allow_globs = []
      · simp only [hd, hae, if_true, hdeny, Bool.false_eq_true, if_false,
          Bool.not_false, Bool.true_and, Bool.false_and, Bool.not_true,
          List.isEmpty_nil, List.any_nil]
        exact prepare_func_from_index_spec env
          { att with allow_globs := [] } name t bid ksym
      · cases ha : bumpFirstMatch env name ksym.mod att.allow_globs with
        | none =>
          have hallow : att.allow_globs.any
              (fun g => env.full_glob_matches g.glob g.mod_glob name ksym.mod) = false := by
            have h := bumpFirstMatch_isSome env name ksym.mod att.allow_globs
            rw [ha] at h
            exact h.symm
          simp [hd, hae, ha, hdeny, hallow, FilterOutcome.isSkip]
        | some allowB =>
          have hallow : att.allow_globs.any
              (fun g => env.full_glob_matches g.glob g.mod_glob name ksym.mod) = true := by
            have h := bumpFirstMatch_isSome env name ksym.mod att.allow_globs
            rw [ha] at h
            exact h.symm
          have hne : att.allow_globs.isEmpty = false := by
            cases hl : att.allow_globs with
            | nil => exact absurd hl hae
            | cons a l => rfl
          simp only [hd, hne, ha, hdeny, hallow, Bool.false_eq_true,
            Bool.not_true, Bool.and_false, Bool.false_and, if_false,
            Bool.not_false, Bool.true_and]
          exact prepare_func_from_index_spec env
            { att with allow_globs := allowB } name t bid ksym

/-! ## The prepare pipeline (`mass_attacher__prepare`) -/

/-- The first enumeration pass (mass_attacher.c:421-434): fold `prepare_func`
over the FUNC entries of the kernel BTF, aborting on the first error. -/
def prepareLoop (env : Env) : MassAttacher → List (String × Option Nat × Nat) →
    MassAttacher × Option Int
  | att, [] => (att, none)
  | att, (name, t, bid) :: rest =>
    match prepare_func env att name t bid with
    | (att2, none) => prepareLoop env att2 rest
    | (att2, some e) => (att2, some e)

/-- The second enumeration pass (mass_attacher.c:435-444), generic mode only:
walk the probe-able index by position; entries already `used` by the first
pass (or by an earlier iteration of this pass) are not considered; the rest
go through `prepare_func` with no BTF type (`t = NULL`, `btf_id = 0`). -/
def secondPassLoop (env : Env) : MassAttacher → List Nat → MassAttacher × Option Int
  | att, [] => (att, none)
  | att, i :: rest =>
    match att.kprobes[i]? with
    | none => secondPassLoop env att rest
    | some k =>
      if k.used then
        secondPassLoop env att rest
      else
        match prepare_func env att k.name none 0 with
        | (att2, none) => secondPassLoop env att2 rest
        | (att2, some e) => (att2, some e)

/-- `load_available_kprobes` (mass_attacher.c:723): read the probe-able
function names, dropping the `__ftrace_invalid_address___` placeholders, into
fresh (`used = false`) index entries.  The `qsort` by name is modelled by the
environment supplying the names in the order the engine ends up with; only
name membership is consulted afterwards. -/
def load_available_kprobes (env : Env) : List KprobeInfo :=
  (env.kprobe_names.filter
    (fun n => !(n.startsWith "__ftrace_invalid_address___"))).map
    (fun n => { name := n, used := false })

/-- The feature-flag copy and strategy decision at the top of
`mass_attacher__prepare` (mass_attacher.c:359-366): calibration results are
stored, then `use_kprobe_multi` is computed. -/
def prepare_env_state (env : Env) (att0 : MassAttacher) : MassAttacher :=
  let att := { att0 with
    kret_ip_off := env.features.kret_ip_off
    has_bpf_get_func_ip := env.features.has_bpf_get_func_ip
    has_fexit_sleep_fix := env.features.has_fexit_sleep_fix
    has_fentry_protection := env.features.has_fentry_protection
    has_bpf_cookie := env.features.has_bpf_cookie
    has_kprobe_multi := env.features.has_kprobe_multi }
  { att with
    use_kprobe_multi := !att.use_fentries && att.has_kprobe_multi &&
      att.attach_mode ≠ AttachMode.kprobeSingle }

/-- The probe-able-index and kernel-BTF acquisition of prepare
(mass_attacher.c:385, 414). -/
def prepare_with_kprobes (env : Env) (att : MassAttacher) : MassAttacher :=
  { att with
    kprobes := load_available_kprobes env
    vmlinux_btf := some () }

/-- `mass_attacher__prepare` (mass_attacher.c:333).  Kallsyms loading and
rlimit bumps are environment effects with no engine-visible state; calibration
results come from `env.features` (failure when neither return-IP signal is
available, `-EFAULT = -14`).  Then: decide `use_kprobe_multi`, conditionally
install the sleepable deny globs, load the probe-able index, run the BTF pass,
run the second pass in generic mode, fail with `-ENOENT = -2` when nothing
survived, and finally size the `ip_to_id` map. -/
def mass_attacher__prepare (env : Env) (att0 : MassAttacher) :
    MassAttacher × Option Int :=
  if !env.features.has_bpf_get_func_ip && env.features.kret_ip_off = 0 then
    (att0, some (-14))
  else
    match (if (prepare_env_state env att0).use_fentries &&
              !(prepare_env_state env att0).has_fexit_sleep_fix then
             addDenyGlobs (prepare_env_state env att0) sleepable_deny_globs
           else (prepare_env_state env att0, none)) with
    | (att2, some e) => (att2, some e)
    | (att2, none) =>
      match prepareLoop env (prepare_with_kprobes env att2)
          (env.btf_funcs.map (fun nb => (nb.1, some nb.2, nb.2))) with
      | (att4, some e) => (att4, some e)
      | (att4, none) =>
        match (if !att4.use_fentries then
                 secondPassLoop env att4 (List.range att4.kprobes.length)
               else (att4, none)) with
        | (att5, some e) => (att5, some e)
        | (att5, none) =>
          if att5.func_infos.length = 0 then
            (att5, some (-2))
          else
            ({ att5 with ip_to_id_max_entries :=
                 if att5.use_fentries || !att5.has_bpf_cookie then
                   att5.func_infos.length
                 else 1 }, none)

/-! ## Load (`mass_attacher__load`) -/

/-- The per-function body of the load loop (mass_attacher.c:793-832):
populate the `ip_to_id` map (trampoline mode, or kprobe modes without BPF
cookies), then in trampoline mode clone the arity-specialized entry program
and the exit program (void variant for void-returning functions).  Returns
the updated record, the kernel calls issued, and an error. -/
def load_one (env : Env) (att : MassAttacher) (i : Nat) (finfo : FuncInfo) :
    FuncInfo × List KernCall × Option Int :=
  let mapCalls : List KernCall :=
    if att.use_fentries || !att.has_bpf_cookie then
      [KernCall.mapUpdate finfo.addr i]
    else []
  if att.use_fentries then
    match env.clone_prog 0 finfo.arg_cnt finfo.btf_id with
    | none =>
      (finfo, mapCalls ++ [KernCall.progClone 0 finfo.arg_cnt finfo.btf_id], some env.errno)
    | some fd1 =>
      let dir : Nat := if is_ret_void env.btf finfo.btf_id then 2 else 1
      match env.clone_prog dir finfo.arg_cnt finfo.btf_id with
      | none =>
        ({ finfo with fentry_prog_fd := fd1 },
         mapCalls ++ [KernCall.progClone 0 finfo.arg_cnt finfo.btf_id,
                      KernCall.progClone dir finfo.arg_cnt finfo.btf_id],
         some env.errno)
      | some fd2 =>
        ({ finfo with fentry_prog_fd := fd1, fexit_prog_fd := fd2 },
         mapCalls ++ [KernCall.progClone 0 finfo.arg_cnt finfo.btf_id,
                      KernCall.progClone dir finfo.arg_cnt finfo.btf_id],
         none)
  else
    (finfo, mapCalls, none)

/-- The load loop over function indices. -/
def loadLoop (env : Env) (att : MassAttacher) :
    List FuncInfo → Nat → List FuncInfo × List KernCall × Option Int
  | [], _ => ([], [], none)
  | finfo :: rest, i =>
    match load_one env att i finfo with
    | (finfo2, calls, some e) => (finfo2 :: rest, calls, some e)
    | (finfo2, calls, none) =>
      match loadLoop env att rest (i + 1) with
      | (rest2, calls2, res) => (finfo2 :: rest2, calls ++ calls2, res)

/-- `mass_attacher__load` (mass_attacher.c:768).  In dry-run mode the skeleton
load is skipped (`err` stays 0) and the function returns before the
per-function loop: no kernel call is made and no handle field is touched. -/
def mass_attacher__load (env : Env) (att : MassAttacher) :
    MassAttacher × List KernCall × Option Int :=
  if att.dry_run then
    (att, [], none)
  else if !env.skel_load_ok then
    (att, [KernCall.skelLoad], some env.errno)
  else
    match loadLoop env att att.func_infos 0 with
    | (infos2, calls, res) =>
      ({ att with func_infos := infos2 }, KernCall.skelLoad :: calls, res)

/-! ## Attach (`mass_attacher__attach`) -/

/-- The per-function body of the attach loop (mass_attacher.c:874-950).
Dry-run skips straight to the logging label; trampoline mode opens a raw
tracepoint per cloned program; batched mode merely records the function for
the later batch calls; single mode attaches one kprobe and one kretprobe. -/
def attach_one (env : Env) (att : MassAttacher) (finfo : FuncInfo) :
    FuncInfo × List KernCall × Option Int :=
  if att.dry_run then
    (finfo, [], none)
  else if att.use_fentries then
    match env.raw_tp_open finfo.fentry_prog_fd with
    | none =>
      (finfo, [KernCall.rawTpOpen finfo.fentry_prog_fd], some env.errno)
    | some lfd1 =>
      match env.raw_tp_open finfo.fexit_prog_fd with
      | none =>
        ({ finfo with fentry_link_fd := lfd1 },
         [KernCall.rawTpOpen finfo.fentry_prog_fd,
          KernCall.rawTpOpen finfo.fexit_prog_fd], some env.errno)
      | some lfd2 =>
        ({ finfo with fentry_link_fd := lfd1, fexit_link_fd := lfd2 },
         [KernCall.rawTpOpen finfo.fentry_prog_fd,
          KernCall.rawTpOpen finfo.fexit_prog_fd], none)
  else if att.use_kprobe_multi then
    (finfo, [], none)
  else
    match env.kprobe_attach false finfo.name with
    | none =>
      (finfo, [KernCall.kprobeAttach false finfo.name], some env.errno)
    | some l1 =>
      match env.kprobe_attach true finfo.name with
      | none =>
        ({ finfo with kentry_link := some l1 },
         [KernCall.kprobeAttach false finfo.name,
          KernCall.kprobeAttach true finfo.name], some env.errno)
      | some l2 =>
        ({ finfo with kentry_link := some l1, kexit_link := some l2 },
         [KernCall.kprobeAttach false finfo.name,
          KernCall.kprobeAttach true finfo.name], none)

/-- The attach loop over all function records, aborting on first failure. -/
def attachLoop (env : Env) (att : MassAttacher) :
    List FuncInfo → List FuncInfo × List KernCall × Option Int
  | [] => ([], [], none)
  | finfo :: rest =>
    match attach_one env att finfo with
    | (finfo2, calls, some e) => (finfo2 :: rest, calls, some e)
    | (finfo2, calls, none) =>
      match attachLoop env att rest with
      | (rest2, calls2, res) => (finfo2 :: rest2, calls ++ calls2, res)

/-- `mass_attacher__attach` (mass_attacher.c:856).  After the per-function
loop, batched mode (not in dry run) issues the entry-direction batch attach
by address first; if the kernel rejects it the options are switched to the
symbol list and the attach is retried exactly once; a second rejection
reports failure.  The exit-direction batch then uses whichever option set is
current (addresses, or symbols after the fallback). -/
def mass_attacher__attach (env : Env) (att : MassAttacher) :
    MassAttacher × List KernCall × Option Int :=
  match attachLoop env att att.func_infos with
  | (infos2, calls, some e) => ({ att with func_infos := infos2 }, calls, some e)
  | (infos2, calls, none) =>
    let att2 := { att with func_infos := infos2 }
    if !att2.dry_run && att2.use_kprobe_multi then
      let addrs := att2.func_infos.map (fun f => f.addr)
      let syms := att2.func_infos.map (fun f => f.name)
      let cookies := List.range att2.func_infos.length
      match env.kprobe_multi false (.byAddrs addrs cookies) with
      | some l1 =>
        let calls2 := calls ++ [KernCall.kprobeMulti false (.byAddrs addrs cookies)]
        match env.kprobe_multi true (.byAddrs addrs cookies) with
        | some l2 =>
          ({ att2 with kentry_multi_link := some l1, kexit_multi_link := some l2 },
           calls2 ++ [KernCall.kprobeMulti true (.byAddrs addrs cookies)], none)
        | none =>
          ({ att2 with kentry_multi_link := some l1 },
           calls2 ++ [KernCall.kprobeMulti true (.byAddrs addrs cookies)],
           some env.errno)
      | none =>
        let calls2 := calls ++ [KernCall.kprobeMulti false (.byAddrs addrs cookies)]
        match env.kprobe_multi false (.bySyms syms cookies) with
        | some l1 =>
          let calls3 := calls2 ++ [KernCall.kprobeMulti false (.bySyms syms cookies)]
          match env.kprobe_multi true (.bySyms syms cookies) with
          | some l2 =>
            ({ att2 with kentry_multi_link := some l1, kexit_multi_link := some l2 },
             calls3 ++ [KernCall.kprobeMulti true (.bySyms syms cookies)], none)
          | none =>
            ({ att2 with kentry_multi_link := some l1 },
             calls3 ++ [KernCall.kprobeMulti true (.bySyms syms cookies)],
             some env.errno)
        | none =>
          (att2, calls2 ++ [KernCall.kprobeMulti false (.bySyms syms cookies)],
           some env.errno)
    else
      (att2, calls, none)

/-! ## Activate and teardown -/

/-- `mass_attacher__activate` (mass_attacher.c:1014): the only place the
readiness flag is set. -/
def mass_attacher__activate (att : MassAttacher) : MassAttacher :=
  { att with ready := true }

/-- Identification of one released handle. -/
inductive Handle where
  | kentryMulti
  | kexitMulti
  | funcKentryLink (i : Nat)
  | funcKexitLink (i : Nat)
  | funcEntryLinkFd (i : Nat)
  | funcExitLinkFd (i : Nat)
  deriving DecidableEq, Repr

/-- One step of teardown, in the order `mass_attacher__free` performs them. -/
inductive FreeEvent where
  | clearReady
  | btfFree
  | linkRelease (h : Handle)
  | funcInfosFree
  | kprobeNameFree (i : Nat)
  | kprobesArrFree
  | insnsFree (dir : Nat) (slot : Nat)
  | skelDestroy
  deriving DecidableEq, Repr

/-- Emit an event only when the guarded handle exists (`bpf_link__destroy`,
`btf__free` and `free` are no-ops on NULL). -/
def optEvent (o : Option α) (e : FreeEvent) : List FreeEvent :=
  match o with
  | some _ => [e]
  | none => []

/-- The per-function release events (mass_attacher.c:204-213): destroy both
kprobe links, then close both raw-tracepoint link fds when positive. -/
def funcFreeEvents (fis : List FuncInfo) : List FreeEvent :=
  (List.range fis.length).flatMap (fun i =>
    match fis[i]? with
    | none => []
    | some fi =>
      optEvent fi.kentry_link (.linkRelease (.funcKentryLink i)) ++
      optEvent fi.kexit_link (.linkRelease (.funcKexitLink i)) ++
      (if fi.fentry_link_fd > 0 then [FreeEvent.linkRelease (.funcEntryLinkFd i)] else []) ++
      (if fi.fexit_link_fd > 0 then [FreeEvent.linkRelease (.funcExitLinkFd i)] else []))

/-- The cloned-instruction-buffer releases (mass_attacher.c:223-227). -/
def insnsFreeEvents (att : MassAttacher) : List FreeEvent :=
  (List.range 7).flatMap (fun i =>
    optEvent (att.fentries_insns.getD i none) (.insnsFree 0 i) ++
    optEvent (att.fexits_insns.getD i none) (.insnsFree 1 i) ++
    optEvent (att.fexit_voids_insns.getD i none) (.insnsFree 2 i))

/-- `mass_attacher__free` (mass_attacher.c:190), as the sequence of externally
visible teardown actions plus the verdict on the pointer (always gone).
`none` models the NULL pointer, on which free returns immediately; the
skeleton pointer itself is never NULL for an engine built by
`mass_attacher__new` (it refuses a NULL skeleton), so the `ready` flag is
always cleared first, before any handle is released, and `SKEL_DESTROY` is
always the last action. -/
def mass_attacher__free : Option MassAttacher → List FreeEvent × Option MassAttacher
  | none => ([], none)
  | some a =>
    (FreeEvent.clearReady ::
     (optEvent a.vmlinux_btf .btfFree ++
      optEvent a.kentry_multi_link (.linkRelease .kentryMulti) ++
      optEvent a.kexit_multi_link (.linkRelease .kexitMulti) ++
      funcFreeEvents a.func_infos ++
      [FreeEvent.funcInfosFree] ++
      (if a.kprobes.isEmpty then []
       else (List.range a.kprobes.length).map FreeEvent.kprobeNameFree ++
            [FreeEvent.kprobesArrFree]) ++
      insnsFreeEvents a ++
      [FreeEvent.skelDestroy]),
     none)

/-! ## Structural lemmas about `prepare_func` -/

theorem markUsed_length (ks : List KprobeInfo) (i : Nat) :
    (markUsed ks i).length = ks.length := by
  unfold markUsed
  split <;> simp

/-- Fields `prepare_func` never writes, and the length-preservation of the
`used` marking. -/
theorem prepare_func_preserves (env : Env) (att : MassAttacher) (name : String)
    (t : Option Nat) (bid : Nat) :
    (prepare_func env att name t bid).1.ready = att.ready ∧
    (prepare_func env att name t bid).1.max_func_cnt = att.max_func_cnt ∧
    (prepare_func env att name t bid).1.use_fentries = att.use_fentries ∧
    (prepare_func env att name t bid).1.use_kprobe_multi = att.use_kprobe_multi ∧
    (prepare_func env att name t bid).1.has_bpf_cookie = att.has_bpf_cookie ∧
    (prepare_func env att name t bid).1.dry_run = att.dry_run ∧
    (prepare_func env att name t bid).1.kprobes.length = att.kprobes.length := by
  unfold prepare_func prepare_func_from_index
  repeat' split
  all_goals
    (try (by_cases hf1 : att.use_fentries = true ∧ is_func_type_ok_opt env t = false <;>
      by_cases hf2 : func_filter_rejects env name att.func_infos.length = true <;>
      by_cases hf3 : att.max_func_cnt ≠ 0 ∧ att.func_infos.length ≥ att.max_func_cnt <;>
      by_cases hf4 : att.use_fentries = true <;>
      simp [hf1, hf2, hf3, hf4, markUsed_length]))
  all_goals simp_all [markUsed_length]

/-- How `prepare_func` can change the accepted-set length: unchanged, or
grown by one — and growth only happens strictly below a non-zero
configured maximum. -/
theorem prepare_func_len (env : Env) (att : MassAttacher) (name : String)
    (t : Option Nat) (bid : Nat) :
    (prepare_func env att name t bid).1.func_infos.length = att.func_infos.length ∨
    ((prepare_func env att name t bid).1.func_infos.length = att.func_infos.length + 1 ∧
     (att.max_func_cnt = 0 ∨ att.func_infos.length < att.max_func_cnt)) := by
  unfold prepare_func prepare_func_from_index
  repeat' split
  all_goals
    (try (by_cases hf1 : att.use_fentries = true ∧ is_func_type_ok_opt env t = false <;>
      by_cases hf2 : func_filter_rejects env name att.func_infos.length = true <;>
      by_cases hf3 : att.max_func_cnt ≠ 0 ∧ att.func_infos.length ≥ att.max_func_cnt <;>
      by_cases hf4 : att.use_fentries = true <;>
      simp [hf1, hf2, hf3, hf4]))
  all_goals simp_all
  all_goals omega

/-- The capacity bound survives one `prepare_func` step. -/
theorem prepare_func_max_invariant (env : Env) (att : MassAttacher)
    (name : String) (t : Option Nat) (bid : Nat)
    (hmax : att.max_func_cnt ≠ 0)
    (hle : att.func_infos.length ≤ att.max_func_cnt) :
    (prepare_func env att name t bid).1.func_infos.length
      ≤ (prepare_func env att name t bid).1.max_func_cnt := by
  have hpres := (prepare_func_preserves env att name t bid).2.1
  rcases prepare_func_len env att name t bid with h | ⟨h, hlt⟩
  · omega
  · rcases hlt with h0 | h0 <;> omega

/-- The capacity bound survives the first enumeration pass. -/
theorem prepareLoop_max_invariant (env : Env) (att : MassAttacher)
    (cands : List (String × Option Nat × Nat))
    (hmax : att.max_func_cnt ≠ 0)
    (hle : att.func_infos.length ≤ att.max_func_cnt) :
    (prepareLoop env att cands).1.func_infos.length
      ≤ (prepareLoop env att cands).1.max_func_cnt := by
  induction cands generalizing att with
  | nil => simpa [prepareLoop] using hle
  | cons c rest ih =>
    unfold prepareLoop
    obtain ⟨name, t, bid⟩ := c
    cases hpf : prepare_func env att name t bid with
    | mk att2 res =>
      have hmax2 : att2.max_func_cnt ≠ 0 := by
        have hpm := (prepare_func_preserves env att name t bid).2.1
        rw [hpf] at hpm
        rw [Ne, hpm]
        exact hmax
      have hstep : att2.func_infos.length ≤ att2.max_func_cnt := by
        have := prepare_func_max_invariant env att name t bid hmax hle
        rw [hpf] at this
        exact this
      cases res with
      | none => exact ih att2 hmax2 hstep
      | some e => simpa using hstep

/-- The capacity bound survives the second enumeration pass. -/
theorem secondPassLoop_max_invariant (env : Env) (att : MassAttacher)
    (idxs : List Nat)
    (hmax : att.max_func_cnt ≠ 0)
    (hle : att.func_infos.length ≤ att.max_func_cnt) :
    (secondPassLoop env att idxs).1.func_infos.length
      ≤ (secondPassLoop env att idxs).1.max_func_cnt := by
  induction idxs generalizing att with
  | nil => simpa [secondPassLoop] using hle
  | cons i rest ih =>
    unfold secondPassLoop
    cases hk : att.kprobes[i]? with
    | none => exact ih att hmax hle
    | some k =>
      by_cases hu : k.used
      · simp only [hk, hu, if_true]
        exact ih att hmax hle
      · simp only [hk, hu, if_false]
        cases hpf : prepare_func env att k.name none 0 with
        | mk att2 res =>
          have hmax2 : att2.max_func_cnt ≠ 0 := by
            have hpm := (prepare_func_preserves env att k.name none 0).2.1
            rw [hpf] at hpm
            rw [Ne, hpm]
            exact hmax
          have hstep : att2.func_infos.length ≤ att2.max_func_cnt := by
            have := prepare_func_max_invariant env att k.name none 0 hmax hle
            rw [hpf] at this
            exact this
          cases res with
          | none => exact ih att2 hmax2 hstep
          | some e => simpa using hstep

/-- The capacity bound survives the deny-glob helpers. -/
theorem addDenyGlobs_func_infos (att : MassAttacher) (gs : List String) :
    (addDenyGlobs att gs).1.func_infos = att.func_infos ∧
    (addDenyGlobs att gs).1.max_func_cnt = att.max_func_cnt ∧
    (addDenyGlobs att gs).1.allow_globs = att.allow_globs := by
  induction gs generalizing att with
  | nil => simp [addDenyGlobs]
  | cons g rest ih =>
    unfold addDenyGlobs
    cases hdg : mass_attacher__deny_glob att g none with
    | mk att2 res =>
      have hfacts : att2.func_infos = att.func_infos ∧
          att2.max_func_cnt = att.max_func_cnt ∧
          att2.allow_globs = att.allow_globs := by
        unfold mass_attacher__deny_glob at hdg
        split at hdg
        · cases hdg
          exact ⟨rfl, rfl, rfl⟩
        · split at hdg
          · cases hdg
            exact ⟨rfl, rfl, rfl⟩
          · cases hdg
            exact ⟨rfl, rfl, rfl⟩
      cases res with
      | none =>
        have h2 := ih att2
        simpa [hfacts.1, hfacts.2.1, hfacts.2.2] using h2
      | some e =>
        simp [hfacts.1, hfacts.2.1, hfacts.2.2]

/-- Equation form of the previous lemma, convenient after `split at`. -/
theorem addDenyGlobs_eq_facts {att att2 : MassAttacher} {gs : List String}
    {oe : Option Int} (h : addDenyGlobs att gs = (att2, oe)) :
    att2.func_infos = att.func_infos ∧
    att2.max_func_cnt = att.max_func_cnt ∧
    att2.allow_globs = att.allow_globs := by
  have k := addDenyGlobs_func_infos att gs
  rw [h] at k
  exact k

/-- The configured maximum itself is never rewritten by the first pass. -/
theorem prepareLoop_max_const (env : Env) (att : MassAttacher)
    (cands : List (String × Option Nat × Nat)) :
    (prepareLoop env att cands).1.max_func_cnt = att.max_func_cnt := by
  induction cands generalizing att with
  | nil => rfl
  | cons c rest ih =>
    unfold prepareLoop
    obtain ⟨name, t, bid⟩ := c
    cases hpf : prepare_func env att name t bid with
    | mk att2 res =>
      have h := (prepare_func_preserves env att name t bid).2.1
      rw [hpf] at h
      cases res with
      | none =>
        rw [ih att2]
        exact h
      | some e => simpa using h

theorem prepare_env_state_facts (env : Env) (att0 : MassAttacher) :
    (prepare_env_state env att0).func_infos = att0.func_infos ∧
    (prepare_env_state env att0).max_func_cnt = att0.max_func_cnt := by
  constructor <;> rfl

theorem mass_attacher__prepare_max_bound (env : Env) (att0 : MassAttacher)
    (hmax : att0.max_func_cnt ≠ 0)
    (hle : att0.func_infos.length ≤ att0.max_func_cnt) :
    (mass_attacher__prepare env att0).1.func_infos.length
      ≤ (mass_attacher__prepare env att0).1.max_func_cnt := by
  unfold mass_attacher__prepare
  split
  · exact hle
  · split
    · rename_i att2 e hsd
      have hpair : att2.func_infos = att0.func_infos ∧
          att2.max_func_cnt = att0.max_func_cnt := by
        split at hsd
        · have h := addDenyGlobs_eq_facts hsd
          exact ⟨h.1, h.2.1⟩
        · cases hsd
      obtain ⟨hfi, hmx⟩ := hpair
      simp only [hfi, hmx]
      exact hle
    · rename_i att2 hsd
      have hpair : att2.func_infos = att0.func_infos ∧
          att2.max_func_cnt = att0.max_func_cnt := by
        split at hsd
        · have h := addDenyGlobs_eq_facts hsd
          exact ⟨h.1, h.2.1⟩
        · cases hsd
          exact ⟨rfl, rfl⟩
      obtain ⟨hfi, hmx⟩ := hpair
      have hmax3 : (prepare_with_kprobes env att2).max_func_cnt ≠ 0 := by
        show att2.max_func_cnt ≠ 0
        rw [Ne, hmx]
        exact hmax
      have hle3 : (prepare_with_kprobes env att2).func_infos.length
          ≤ (prepare_with_kprobes env att2).max_func_cnt := by
        show att2.func_infos.length ≤ att2.max_func_cnt
        rw [hfi, hmx]
        exact hle
      split
      · rename_i att4 e2 hpl
        have h := prepareLoop_max_invariant env (prepare_with_kprobes env att2)
          (env.btf_funcs.map (fun nb => (nb.1, some nb.2, nb.2))) hmax3 hle3
        rw [hpl] at h
        exact h
      · rename_i att4 hpl
        have hle4 : att4.func_infos.length ≤ att4.max_func_cnt := by
          have h := prepareLoop_max_invariant env (prepare_with_kprobes env att2)
            (env.btf_funcs.map (fun nb => (nb.1, some nb.2, nb.2))) hmax3 hle3
          rw [hpl] at h
          exact h
        have hmax4 : att4.max_func_cnt ≠ 0 := by
          have h := prepareLoop_max_const env (prepare_with_kprobes env att2)
            (env.btf_funcs.map (fun nb => (nb.1, some nb.2, nb.2)))
          rw [hpl] at h
          rw [Ne, h]
          exact hmax3
        split
        · rename_i att5 e3 hsp
          have hle5 : att5.func_infos.length ≤ att5.max_func_cnt := by
            split at hsp
            · have h := secondPassLoop_max_invariant env att4
                (List.range att4.kprobes.length) hmax4 hle4
              rw [hsp] at h
              exact h
            · cases hsp
          exact hle5
        · rename_i att5 hsp
          have hle5 : att5.func_infos.length ≤ att5.max_func_cnt := by
            split at hsp
            · have h := secondPassLoop_max_invariant env att4
                (List.range att4.kprobes.length) hmax4 hle4
              rw [hsp] at h
              exact h
            · cases hsp
              exact hle4
          split
          · exact hle5
          · simpa using hle5

/-- C4: with a configured maximum, a candidate that survives every filter
when the accepted count has already reached the maximum makes enumeration
abort with the capacity error `-E2BIG` — not a per-function skip (the skip
counter is untouched), the candidate is not appended, and the accepted
records are exactly as before — and the accepted count never exceeds the
maximum across the whole prepare pipeline. -/
theorem capacity_never_exceeded (env : Env) (att : MassAttacher)
    (name : String) (t : Option Nat) (bid : Nat) (att0 : MassAttacher) :
    (specFilterOutcome env att name t = .capacity →
      (prepare_func env att name t bid).2 = some (-7) ∧
      (prepare_func env att name t bid).1.func_infos = att.func_infos ∧
      (prepare_func env att name t bid).1.func_skip_cnt = att.func_skip_cnt) ∧
    (att0.max_func_cnt ≠ 0 → att0.func_infos.length ≤ att0.max_func_cnt →
      (mass_attacher__prepare env att0).1.func_infos.length
        ≤ (mass_attacher__prepare env att0).1.max_func_cnt) :=
  ⟨(prepare_func_outcome_cases env att name t bid).2.1,
   mass_attacher__prepare_max_bound env att0⟩

/-! ## Claim theorems C1 and C4, with concrete witnesses -/

/-- C1: every candidate is judged by the filters in the fixed spec order —
symbol resolution, deny glob, allow glob (required only when allow rules
exist), probe-able-index membership, prototype compatibility (trampoline mode
only), custom predicate — short-circuiting on the first failing filter: a skip
returns success, bumps the skip counter by one and leaves the accepted set
untouched; capacity is the only error; acceptance appends exactly one record.
Both `prepare_func` and the spec verdict are functions of the engine state and
the candidate alone, so the order is identical for every candidate regardless
of the order in which candidates are enumerated. -/
theorem prepare_func_filter_order (env : Env) (att : MassAttacher)
    (name : String) (t : Option Nat) (bid : Nat) :
    ((specFilterOutcome env att name t).isSkip = true →
      (prepare_func env att name t bid).2 = none ∧
      (prepare_func env att name t bid).1.func_skip_cnt = att.func_skip_cnt + 1 ∧
      (prepare_func env att name t bid).1.func_infos = att.func_infos) ∧
    (specFilterOutcome env att name t = .capacity →
      (prepare_func env att name t bid).2 = some (-7) ∧
      (prepare_func env att name t bid).1.func_infos = att.func_infos ∧
      (prepare_func env att name t bid).1.func_skip_cnt = att.func_skip_cnt) ∧
    (specFilterOutcome env att name t = .accepted →
      (prepare_func env att name t bid).2 = none ∧
      (prepare_func env att name t bid).1.func_skip_cnt = att.func_skip_cnt ∧
      (prepare_func env att name t bid).1.func_infos.length
        = att.func_infos.length + 1) :=
  prepare_func_outcome_cases env att name t bid

/-- Features as a tiny concrete kernel would report them. -/
def featsW : Features :=
  { kret_ip_off := 16
    has_bpf_get_func_ip := true
    has_fexit_sleep_fix := true
    has_fentry_protection := true
    has_bpf_cookie := true
    has_kprobe_multi := true }

/-- A concrete witness environment: two resolvable kernel functions, a glob
matcher that matches by literal name, every kernel call accepted. -/
def envW : Env :=
  { ksyms := fun n =>
      if n = "tcp_sendmsg" then
        some { addr := 4096, size := 64, name := "tcp_sendmsg", mod := none }
      else if n = "udp_sendmsg" then
        some { addr := 8192, size := 32, name := "udp_sendmsg", mod := none }
      else none
    full_glob_matches := fun g _ n _ => g == n
    func_filter := none
    btf := fun _ => BtfType.other
    fuel := 3
    features := featsW
    kprobe_names := ["tcp_sendmsg", "udp_sendmsg"]
    btf_funcs := []
    skel_load_ok := true
    clone_prog := fun _ _ _ => some 100
    raw_tp_open := fun fd => some (fd + 1)
    kprobe_attach := fun _ _ => some 7
    kprobe_multi := fun _ _ => some 8
    errno := -1 }

def optsW : Opts :=
  { max_func_cnt := 0, dry_run := false, attach_mode := AttachMode.kprobeMulti }

/-- A concrete engine state: fresh engine with the probe-able index loaded. -/
def attW : MassAttacher :=
  { (mass_attacher__new (some optsW)).1 with
      kprobes := [{ name := "tcp_sendmsg", used := false },
                  { name := "udp_sendmsg", used := false }] }

theorem prepare_func_filter_order_witness :
    specFilterOutcome envW attW "tcp_sendmsg" none = FilterOutcome.accepted ∧
    (prepare_func envW attW "tcp_sendmsg" none 0).2 = none ∧
    (prepare_func envW attW "tcp_sendmsg" none 0).1.func_infos.length
      = attW.func_infos.length + 1 := by
  have h := (prepare_func_filter_order envW attW "tcp_sendmsg" none 0).2.2
  exact ⟨by decide, (h (by decide)).1, (h (by decide)).2.2⟩

/-- One already-accepted function record, for the capacity witness. -/
def fiW : FuncInfo :=
  { addr := 8192, size := 32, name := "udp_sendmsg", mod := none,
    arg_cnt := 0, btf_id := 0, fentry_prog_fd := 0, fexit_prog_fd := 0,
    fentry_link_fd := 0, fexit_link_fd := 0, kentry_link := none,
    kexit_link := none }

/-- A state already at its configured maximum of one function. -/
def attC4 : MassAttacher :=
  { attW with max_func_cnt := 1, func_infos := [fiW] }

theorem capacity_never_exceeded_witness :
    specFilterOutcome envW attC4 "tcp_sendmsg" none = FilterOutcome.capacity ∧
    (prepare_func envW attC4 "tcp_sendmsg" none 0).2 = some (-7) ∧
    (prepare_func envW attC4 "tcp_sendmsg" none 0).1.func_infos = attC4.func_infos ∧
    (mass_attacher__prepare envW attC4).1.func_infos.length
      ≤ (mass_attacher__prepare envW attC4).1.max_func_cnt := by
  have h := capacity_never_exceeded envW attC4 "tcp_sendmsg" none 0 attC4
  exact ⟨by decide, (h.1 (by decide)).1, (h.1 (by decide)).2.1,
    h.2 (by decide) (by decide)⟩

/-! ## Claim C10: the `used` mark is set at index-check time and the second
pass never reconsiders a marked entry -/

theorem markUsed_get (ks : List KprobeInfo) (i : Nat) :
    (markUsed ks i)[i]? = ks[i]?.map (fun k => { k with used := true }) := by
  unfold markUsed
  cases h : ks[i]? with
  | none => simp [h]
  | some k =>
    have hlt : i < ks.length := by
      by_contra hge
      rw [List.getElem?_eq_none (by omega)] at h
      cases h
    simp [List.getElem?_set, hlt, h]

theorem markUsed_used_mono (ks : List KprobeInfo) (i j : Nat)
    (h : ks[j]?.map KprobeInfo.used = some true) :
    ((markUsed ks i)[j]?).map KprobeInfo.used = some true := by
  unfold markUsed
  cases hi : ks[i]? with
  | none => exact h
  | some k =>
    by_cases hij : i = j
    · subst hij
      have hlt : i < ks.length := by
        by_contra hge
        rw [List.getElem?_eq_none (by omega)] at hi
        cases hi
      simp [List.getElem?_set, hlt]
    · rw [List.getElem?_set]
      simp only [hij, if_false]
      exact h

theorem find_idx_some (p : α → Bool) (l : List α) (i : Nat)
    (h : find_idx p l = some i) : ∃ a, l[i]? = some a ∧ p a = true := by
  induction l generalizing i with
  | nil => cases h
  | cons a rest ih =>
    unfold find_idx at h
    by_cases hp : p a
    · simp [hp] at h
      subst h
      exact ⟨a, by simp, hp⟩
    · simp only [hp, Bool.false_eq_true, if_false] at h
      cases hfi : find_idx p rest with
      | none =>
        rw [hfi] at h
        cases h
      | some m =>
        rw [hfi] at h
        simp at h
        obtain ⟨a2, ha2, hpa⟩ := ih m hfi
        refine ⟨a2, ?_, hpa⟩
        rw [← h]
        simpa using ha2

/-- Past the index lookup, whatever branch is taken, the found entry ends up
marked. -/
theorem prepare_func_from_index_marks (env : Env) (att : MassAttacher)
    (name : String) (t : Option Nat) (bid : Nat) (ksym : Ksym) (idx : Nat)
    (hfind : find_kprobe att name = some idx) :
    (prepare_func_from_index env att name t bid ksym).1.kprobes
      = markUsed att.kprobes idx := by
  unfold prepare_func_from_index
  rw [hfind]
  by_cases hf1 : att.use_fentries = true ∧ is_func_type_ok_opt env t = false <;>
    by_cases hf2 : func_filter_rejects env name att.func_infos.length = true <;>
    by_cases hf3 : att.max_func_cnt ≠ 0 ∧ att.func_infos.length ≥ att.max_func_cnt <;>
    by_cases hf4 : att.use_fentries = true <;>
    first
      | (simp [hf1, hf2, hf3, hf4]
         done)
      | (have hok : is_func_type_ok_opt env t = true := by
           cases hO : is_func_type_ok_opt env t
           · exact absurd ⟨hf4, hO⟩ hf1
           · rfl
         simp [hok, hf2, hf3, hf4])

/-- The only kprobes-list change `prepare_func` can make is marking one
entry. -/
theorem prepare_func_kprobes_eq (env : Env) (att : MassAttacher)
    (name : String) (t : Option Nat) (bid : Nat) :
    (prepare_func env att name t bid).1.kprobes = att.kprobes ∨
    ∃ idx, (prepare_func env att name t bid).1.kprobes
      = markUsed att.kprobes idx := by
  unfold prepare_func
  cases hk : env.ksyms name with
  | none =>
    left
    simp [hk]
  | some ksym =>
    cases hd : bumpFirstMatch env name ksym.mod att.deny_globs with
    | some denyB =>
      left
      simp [hk, hd]
    | none =>
      by_cases hae : att.allow_globs.isEmpty
      · simp only [hk, hd, hae, if_true]
        cases hf : find_kprobe { att with allow_globs := att.allow_globs } name with
        | none =>
          left
          simp [prepare_func_from_index, hf]
        | some idx =>
          right
          exact ⟨idx, prepare_func_from_index_marks env _ name t bid ksym idx hf⟩
      · have hne : att.allow_globs.isEmpty = false := by
          cases hl : att.allow_globs with
          | nil =>
            rw [hl] at hae
            exact absurd rfl hae
          | cons x l => rfl
        cases hal : bumpFirstMatch env name ksym.mod att.allow_globs with
        | none =>
          left
          simp [hk, hd, hne, hal]
        | some allowB =>
          simp only [hk, hd, hne, Bool.false_eq_true, if_false, hal]
          cases hf : find_kprobe { att with allow_globs := allowB } name with
          | none =>
            left
            simp [prepare_func_from_index, hf]
          | some idx =>
            right
            exact ⟨idx, prepare_func_from_index_marks env _ name t bid ksym idx hf⟩

/-- `used` marks are never cleared by a later candidate's `prepare_func`. -/
theorem prepare_func_used_mono (env : Env) (att : MassAttacher)
    (name : String) (t : Option Nat) (bid : Nat) (j : Nat)
    (hj : att.kprobes[j]?.map KprobeInfo.used = some true) :
    ((prepare_func env att name t bid).1.kprobes[j]?).map KprobeInfo.used
      = some true := by
  rcases prepare_func_kprobes_eq env att name t bid with h | ⟨idx, h⟩
  · rw [h]
    exact hj
  · rw [h]
    exact markUsed_used_mono att.kprobes idx j hj

/-- A candidate that resolves, passes deny and allow filtering and is found
in the probe-able index gets its entry marked, whatever happens later. -/
theorem prepare_func_marks_used (env : Env) (att : MassAttacher)
    (name : String) (t : Option Nat) (bid : Nat) (ksym : Ksym) (idx : Nat)
    (hk : env.ksyms name = some ksym)
    (hdeny : bumpFirstMatch env name ksym.mod att.deny_globs = none)
    (hallow : att.allow_globs = [] ∨
      (bumpFirstMatch env name ksym.mod att.allow_globs).isSome = true)
    (hfind : find_kprobe att name = some idx) :
    ((prepare_func env att name t bid).1.kprobes[idx]?).map KprobeInfo.used
      = some true := by
  obtain ⟨a, ha, hpa⟩ := find_idx_some _ _ _ hfind
  have hkp : (prepare_func env att name t bid).1.kprobes
      = markUsed att.kprobes idx := by
    unfold prepare_func
    simp only [hk, hdeny]
    rcases hallow with hae | hsome
    · simp only [hae, List.isEmpty_nil, if_true]
      exact prepare_func_from_index_marks env _ name t bid ksym idx hfind
    · cases ha2 : bumpFirstMatch env name ksym.mod att.allow_globs with
      | none =>
        rw [ha2] at hsome
        cases hsome
      | some allowB =>
        have hne : att.allow_globs.isEmpty = false := by
          cases hl : att.allow_globs with
          | nil =>
            rw [hl] at ha2
            cases ha2
          | cons x l => rfl
        simp only [hne, Bool.false_eq_true, if_false, ha2]
        exact prepare_func_from_index_marks env _ name t bid ksym idx hfind
  rw [hkp, markUsed_get, ha]
  rfl

/-- C10: a candidate that reaches and passes the probe-able-index membership
test has its index entry marked `used` immediately — whether it is
subsequently skipped by the prototype check or the custom predicate, aborts
on the capacity error, or is accepted — later candidates never clear a mark,
and the generic-mode second pass skips any entry whose `used` flag is set, so
such a function is never considered a second time. -/
theorem used_marked_at_index_check (env : Env) (att : MassAttacher)
    (name : String) (t : Option Nat) (bid : Nat) (ksym : Ksym) (idx : Nat)
    (i : Nat) (k : KprobeInfo) (rest : List Nat) :
    (env.ksyms name = some ksym →
      bumpFirstMatch env name ksym.mod att.deny_globs = none →
      (att.allow_globs = [] ∨
        (bumpFirstMatch env name ksym.mod att.allow_globs).isSome = true) →
      find_kprobe att name = some idx →
      ((prepare_func env att name t bid).1.kprobes[idx]?).map KprobeInfo.used
        = some true) ∧
    (∀ j : Nat, att.kprobes[j]?.map KprobeInfo.used = some true →
      ((prepare_func env att name t bid).1.kprobes[j]?).map KprobeInfo.used
        = some true) ∧
    (att.kprobes[i]? = some k → k.used = true →
      secondPassLoop env att (i :: rest) = secondPassLoop env att rest) := by
  refine ⟨fun hk hdeny hallow hfind =>
    prepare_func_marks_used env att name t bid ksym idx hk hdeny hallow hfind,
    fun j hj => prepare_func_used_mono env att name t bid j hj,
    ?_⟩
  intro hik hused
  conv_lhs => unfold secondPassLoop
  rw [hik]
  simp [hused]

/-- State for the C10 witness: one index entry already marked, one not. -/
def attC10 : MassAttacher :=
  { (mass_attacher__new (some optsW)).1 with
      kprobes := [{ name := "udp_sendmsg", used := true },
                  { name := "tcp_sendmsg", used := false }] }

theorem used_marked_at_index_check_witness :
    ((prepare_func envW attC10 "tcp_sendmsg" none 0).1.kprobes[1]?).map
      KprobeInfo.used = some true ∧
    ((prepare_func envW attC10 "tcp_sendmsg" none 0).1.kprobes[0]?).map
      KprobeInfo.used = some true ∧
    secondPassLoop envW attC10 [0] = secondPassLoop envW attC10 [] := by
  have h := used_marked_at_index_check envW attC10 "tcp_sendmsg" none 0
    { addr := 4096, size := 64, name := "tcp_sendmsg", mod := none } 1 0
    { name := "udp_sendmsg", used := true } []
  exact ⟨h.1 (by decide) (by decide) (by decide) (by decide),
         h.2.1 0 (by decide),
         h.2.2 (by decide) (by decide)⟩

/-! ## Claim C2: built-in deny rules versus user rules -/

/-- One user-supplied rule addition between `new` and `prepare`. -/
inductive RuleOp where
  | allowRule (glob : String) (mod_glob : Option String)
  | denyRule (glob : String) (mod_glob : Option String)
  deriving DecidableEq, Repr

/-- Any sequence of `mass_attacher__allow_glob` / `mass_attacher__deny_glob`
calls the caller makes before prepare (failed additions leave the state
unchanged, as in C). -/
def applyRuleOps : MassAttacher → List RuleOp → MassAttacher
  | att, [] => att
  | att, RuleOp.allowRule g m :: ops =>
    applyRuleOps (mass_attacher__allow_glob att g m).1 ops
  | att, RuleOp.denyRule g m :: ops =>
    applyRuleOps (mass_attacher__deny_glob att g m).1 ops

theorem applyRuleOps_deny_extends (att : MassAttacher) (ops : List RuleOp) :
    ∃ ds, (applyRuleOps att ops).deny_globs = att.deny_globs ++ ds := by
  induction ops generalizing att with
  | nil => exact ⟨[], by simp [applyRuleOps]⟩
  | cons op rest ih =>
    cases op with
    | allowRule g m =>
      obtain ⟨ds, hds⟩ := ih (mass_attacher__allow_glob att g m).1
      refine ⟨ds, ?_⟩
      have hstep : (mass_attacher__allow_glob att g m).1.deny_globs
          = att.deny_globs := by
        unfold mass_attacher__allow_glob
        split
        · rfl
        · split
          · rfl
          · rfl
      calc (applyRuleOps att (RuleOp.allowRule g m :: rest)).deny_globs
          = (applyRuleOps (mass_attacher__allow_glob att g m).1 rest).deny_globs := rfl
        _ = (mass_attacher__allow_glob att g m).1.deny_globs ++ ds := hds
        _ = att.deny_globs ++ ds := by rw [hstep]
    | denyRule g m =>
      obtain ⟨ds, hds⟩ := ih (mass_attacher__deny_glob att g m).1
      have hstep : ∃ d0, (mass_attacher__deny_glob att g m).1.deny_globs
          = att.deny_globs ++ d0 := by
        unfold mass_attacher__deny_glob
        split
        · exact ⟨[], by simp⟩
        · split
          · exact ⟨[], by simp⟩
          · exact ⟨[{ glob := g, mod_glob := m, match_cnt := 0 }], rfl⟩
      obtain ⟨d0, hd0⟩ := hstep
      refine ⟨d0 ++ ds, ?_⟩
      calc (applyRuleOps att (RuleOp.denyRule g m :: rest)).deny_globs
          = (applyRuleOps (mass_attacher__deny_glob att g m).1 rest).deny_globs := rfl
        _ = (mass_attacher__deny_glob att g m).1.deny_globs ++ ds := hds
        _ = att.deny_globs ++ (d0 ++ ds) := by rw [hd0, List.append_assoc]

theorem addDenyGlobs_all_valid (att : MassAttacher) (gs : List String)
    (h : ∀ g ∈ gs, is_valid_glob g = true) :
    (addDenyGlobs att gs).1.deny_globs
      = att.deny_globs ++ gs.map
          (fun g => { glob := g, mod_glob := none, match_cnt := 0 }) := by
  induction gs generalizing att with
  | nil => simp [addDenyGlobs]
  | cons g rest ih =>
    have hg : is_valid_glob g = true := h g (List.mem_cons_self g rest)
    have hrest : ∀ x ∈ rest, is_valid_glob x = true :=
      fun x hx => h x (List.mem_cons_of_mem g hx)
    unfold addDenyGlobs mass_attacher__deny_glob
    simp only [hg, Bool.not_true, Bool.false_eq_true, if_false]
    rw [ih _ hrest]
    simp

/-- `mass_attacher__new` comes out with exactly the enforced deny globs
installed, in order, and no allow rule. -/
theorem mass_attacher__new_deny (opts : Opts) :
    (mass_attacher__new (some opts)).1.deny_globs
      = enforced_deny_globs.map
          (fun g => { glob := g, mod_glob := none, match_cnt := 0 }) ∧
    (mass_attacher__new (some opts)).1.allow_globs = [] := by
  constructor
  · have h := addDenyGlobs_all_valid (initAttacher opts) enforced_deny_globs
      (by decide)
    simpa [mass_attacher__new, initAttacher] using h
  · have h := (addDenyGlobs_func_infos (initAttacher opts) enforced_deny_globs).2.2
    simpa [mass_attacher__new, initAttacher] using h

/-- A candidate matching any deny rule is skipped — success return, skip
counter bumped, accepted set untouched — regardless of the allow rules. -/
theorem prepare_func_denied (env : Env) (attA : MassAttacher) (name : String)
    (t : Option Nat) (bid : Nat) (ksym : Ksym)
    (hk : env.ksyms name = some ksym)
    (hdeny : attA.deny_globs.any
      (fun g => env.full_glob_matches g.glob g.mod_glob name ksym.mod) = true) :
    (prepare_func env attA name t bid).2 = none ∧
    (prepare_func env attA name t bid).1.func_infos = attA.func_infos ∧
    (prepare_func env attA name t bid).1.func_skip_cnt
      = attA.func_skip_cnt + 1 := by
  have hb := bumpFirstMatch_isSome env name ksym.mod attA.deny_globs
  rw [hdeny] at hb
  cases hbm : bumpFirstMatch env name ksym.mod attA.deny_globs with
  | none =>
    rw [hbm] at hb
    cases hb
  | some denyB =>
    unfold prepare_func
    simp [hk, hbm]

/-- C2 (amended): when options are supplied, the enforced deny globs are
installed at construction and stay at the head of the deny list, before
every user rule; during filtering any deny match — in particular a built-in
one — skips the candidate before the allow rules are even consulted, so
allow rules cannot override the built-in deny list.  (The sleepable deny
globs are appended during prepare, after user rules — see the
counterexample — but participate in the same deny-before-allow check.
A NULL-opts construction returns early and installs no deny glob at all.) -/
theorem builtin_deny_not_overridable (opts : Opts) (ops : List RuleOp)
    (env : Env) (name : String) (t : Option Nat) (bid : Nat) (ksym : Ksym) :
    ((applyRuleOps (mass_attacher__new (some opts)).1 ops).deny_globs.map
        (fun g => (g.glob, g.mod_glob))).take enforced_deny_globs.length
      = enforced_deny_globs.map (fun g => (g, (none : Option String))) ∧
    (∀ attA : MassAttacher,
      env.ksyms name = some ksym →
      (∃ g, g ∈ attA.deny_globs ∧
        env.full_glob_matches g.glob g.mod_glob name ksym.mod = true) →
      (prepare_func env attA name t bid).2 = none ∧
      (prepare_func env attA name t bid).1.func_infos = attA.func_infos ∧
      (prepare_func env attA name t bid).1.func_skip_cnt
        = attA.func_skip_cnt + 1) ∧
    (env.ksyms name = some ksym →
      enforced_deny_globs.any
        (fun g => env.full_glob_matches g none name ksym.mod) = true →
      (prepare_func env (applyRuleOps (mass_attacher__new (some opts)).1 ops)
        name t bid).2 = none ∧
      (prepare_func env (applyRuleOps (mass_attacher__new (some opts)).1 ops)
          name t bid).1.func_infos
        = (applyRuleOps (mass_attacher__new (some opts)).1 ops).func_infos) ∧
    ((mass_attacher__new none).1.deny_globs = [] ∧
     (mass_attacher__new none).2 = none) := by
  obtain ⟨ds, hds⟩ := applyRuleOps_deny_extends (mass_attacher__new (some opts)).1 ops
  have hnew := (mass_attacher__new_deny opts).1
  refine ⟨?_, ?_, ?_, rfl, rfl⟩
  · rw [hds, hnew, List.map_append]
    have hlen : ((enforced_deny_globs.map
        (fun g => ({ glob := g, mod_glob := none, match_cnt := 0 } : GlobSpec))).map
          (fun g => (g.glob, g.mod_glob))).length = enforced_deny_globs.length := by
      simp
    rw [← hlen, List.take_left]
    simp
  · intro attA hk ⟨g, hmem, hmatch⟩
    exact prepare_func_denied env attA name t bid ksym hk
      (List.any_eq_true.mpr ⟨g, hmem, hmatch⟩)
  · intro hk hany
    obtain ⟨g, hgmem, hgmatch⟩ := List.any_eq_true.mp hany
    have hmem : ({ glob := g, mod_glob := none, match_cnt := 0 } : GlobSpec)
        ∈ (applyRuleOps (mass_attacher__new (some opts)).1 ops).deny_globs := by
      rw [hds, hnew]
      exact List.mem_append_left _ (List.mem_map_of_mem _ hgmem)
    have h := prepare_func_denied env
      (applyRuleOps (mass_attacher__new (some opts)).1 ops) name t bid ksym hk
      (List.any_eq_true.mpr ⟨_, hmem, hgmatch⟩)
    exact ⟨h.1, h.2.1⟩

/-- Trampoline-mode options, for exercising the sleepable deny installation. -/
def optsF : Opts :=
  { max_func_cnt := 0, dry_run := false, attach_mode := AttachMode.fentry }

/-- The witness environment on a kernel lacking the fexit sleep fix. -/
def envS : Env :=
  { envW with features := { featsW with has_fexit_sleep_fix := false } }

/-- An engine with one user deny rule added after construction. -/
def attC2 : MassAttacher :=
  (mass_attacher__deny_glob (mass_attacher__new (some optsF)).1 "my_custom_rule" none).1

/-- Counterexample to C2 as stated: with trampoline mode on a kernel without
the fexit sleep fix, a user deny rule added after `mass_attacher__new` ends up
BEFORE the built-in sleepable deny globs in the deny-rule set — the sleepable
globs are installed by prepare, after user-supplied rules, not before. -/
theorem sleepable_installed_after_user_rule :
    ((mass_attacher__prepare envS attC2).1.deny_globs.map (fun g => g.glob))
      = enforced_deny_globs ++ ["my_custom_rule"] ++ sleepable_deny_globs ∧
    ((mass_attacher__prepare envS attC2).1.deny_globs.map (fun g => g.glob))[14]?
      = some "my_custom_rule" ∧
    ((mass_attacher__prepare envS attC2).1.deny_globs.map (fun g => g.glob))[15]?
      = some "*_sys_select" := by
  decide

/-- A witness environment resolving a function named like a built-in deny
entry. -/
def ksymsC2 (n : String) : Option Ksym :=
  if n = "migrate_enable" then
    some { addr := 100, size := 10, name := "migrate_enable", mod := none }
  else envW.ksyms n

def envC2 : Env :=
  { envW with ksyms := ksymsC2 }

theorem builtin_deny_not_overridable_witness :
    ((applyRuleOps (mass_attacher__new (some optsW)).1
        [RuleOp.allowRule "migrate_enable" none]).deny_globs.map
          (fun g => (g.glob, g.mod_glob))).take enforced_deny_globs.length
      = enforced_deny_globs.map (fun g => (g, (none : Option String))) ∧
    (prepare_func envC2 (applyRuleOps (mass_attacher__new (some optsW)).1
        [RuleOp.allowRule "migrate_enable" none]) "migrate_enable" none 0).2
      = none ∧
    (prepare_func envC2 (applyRuleOps (mass_attacher__new (some optsW)).1
        [RuleOp.allowRule "migrate_enable" none]) "migrate_enable" none 0).1.func_infos
      = (applyRuleOps (mass_attacher__new (some optsW)).1
          [RuleOp.allowRule "migrate_enable" none]).func_infos := by
  have h := builtin_deny_not_overridable optsW
    [RuleOp.allowRule "migrate_enable" none] envC2 "migrate_enable" none 0
    { addr := 100, size := 10, name := "migrate_enable", mod := none }
  exact ⟨h.1, (h.2.2.1 (by decide) (by decide)).1,
    (h.2.2.1 (by decide) (by decide)).2⟩

/-! ## Claim C9: sizing and population of the `ip_to_id` lookup table -/

/-- Recognize the map-population kernel call. -/
def isMapUpdate : KernCall → Bool
  | .mapUpdate _ _ => true
  | _ => false

/-- The map updates one `load_one` step issues: exactly one entry for this
function when trampoline mode is on or cookies are unsupported, none
otherwise (mass_attacher.c:799-812). -/
theorem load_one_mapUpdates (env : Env) (att : MassAttacher) (i : Nat)
    (finfo : FuncInfo) :
    (load_one env att i finfo).2.1.filter isMapUpdate =
      (if att.use_fentries || !att.has_bpf_cookie then
        [KernCall.mapUpdate finfo.addr i] else []) := by
  by_cases hc : (att.use_fentries || !att.has_bpf_cookie) = true <;>
    simp only [load_one, hc, if_true, if_false, Bool.not_eq_true] at * <;>
    repeat' split
  all_goals simp_all [isMapUpdate, List.filter_append, List.filter]

/-- Over a successful load loop, the map updates issued are exactly one
address→index entry per function, in order, when trampoline mode is on or
cookies are unsupported — and none otherwise. -/
theorem loadLoop_mapUpdates (env : Env) (att : MassAttacher)
    (fis : List FuncInfo) :
    ∀ i : Nat, (loadLoop env att fis i).2.2 = none →
      (loadLoop env att fis i).2.1.filter isMapUpdate =
        (if att.use_fentries || !att.has_bpf_cookie then
          (List.enumFrom i fis).map (fun p => KernCall.mapUpdate p.2.addr p.1)
        else []) := by
  induction fis with
  | nil =>
    intro i h
    cases hc : (att.use_fentries || !att.has_bpf_cookie) <;>
      simp [loadLoop, hc, List.enumFrom]
  | cons finfo rest ih =>
    intro i h
    have hone := load_one_mapUpdates env att i finfo
    rw [loadLoop] at h ⊢
    cases hl : load_one env att i finfo with
    | mk finfo2 pc =>
    cases pc with
    | mk calls err =>
    cases err with
    | some e =>
      rw [hl] at h
      simp at h
    | none =>
      rw [hl] at h
      cases hrest : loadLoop env att rest (i + 1) with
      | mk rest2 pc2 =>
      cases pc2 with
      | mk calls2 res =>
      rw [hrest] at h
      simp only at h ⊢
      have ihh := ih (i + 1) (by rw [hrest]; simpa using h)
      rw [hrest] at ihh
      simp only at ihh
      rw [hl] at hone
      simp only at hone
      rw [List.filter_append, hone, ihh]
      cases hc : (att.use_fentries || !att.has_bpf_cookie) <;>
        simp [hc, List.enumFrom]

/-- C9 (amended): after a successful prepare, the address→index lookup table
is sized to the accepted function count exactly when trampoline mode is in
use or BPF cookies are unsupported — in every probe mode, batched included —
and left at the minimal size 1 only when kprobes are used with cookie
support; under the same condition a successful non-dry-run load issues
exactly one address→index map update per accepted function, in order, and
none otherwise. -/
theorem ip_to_id_sizing (env : Env) (att0 att : MassAttacher)
    (hp : mass_attacher__prepare env att0 = (att, none)) :
    (att.ip_to_id_max_entries =
       if att.use_fentries || !att.has_bpf_cookie then
         att.func_infos.length
       else 1) ∧
    (∀ env2 : Env, att.dry_run = false →
       (mass_attacher__load env2 att).2.2 = none →
       (mass_attacher__load env2 att).2.1.filter isMapUpdate =
         (if att.use_fentries || !att.has_bpf_cookie then
            (List.enumFrom 0 att.func_infos).map
              (fun p => KernCall.mapUpdate p.2.addr p.1)
          else [])) := by
  constructor
  · unfold mass_attacher__prepare at hp
    split at hp
    · cases hp
    · split at hp
      · cases hp
      · rename_i att2 hsd
        split at hp
        · cases hp
        · rename_i att4 hfirst
          split at hp
          · cases hp
          · rename_i att5 hsecond
            split at hp
            · cases hp
            · have hatt := congrArg Prod.fst hp
              simp only at hatt
              rw [hatt.symm]
  · intro env2 hdry hres
    unfold mass_attacher__load at hres ⊢
    rw [hdry] at hres ⊢
    simp only [Bool.false_eq_true, if_false] at hres ⊢
    split at hres
    · simp at hres
    · rename_i hskel
      rw [if_neg hskel] at *
      cases hloop : loadLoop env2 att att.func_infos 0 with
      | mk infos2 pc =>
      cases pc with
      | mk calls res =>
      rw [hloop] at hres
      simp only at hres ⊢
      have hmain := loadLoop_mapUpdates env2 att att.func_infos 0
        (by rw [hloop]; simpa using hres)
      rw [hloop] at hmain
      simp only at hmain
      have hsk : isMapUpdate KernCall.skelLoad = false := rfl
      simp [List.filter_cons, hsk, hmain]

/-- A witness kernel lacking BPF cookie support. -/
def envC9 : Env :=
  { envW with features := { featsW with has_bpf_cookie := false } }

/-- A fresh batched-mode engine for the lookup-table claims. -/
def att0C9 : MassAttacher :=
  (mass_attacher__new (some optsW)).1

/-- The state after a successful prepare on the cookie-less kernel. -/
def attP9 : MassAttacher :=
  (mass_attacher__prepare envC9 att0C9).1

/-- Counterexample to C9 as stated: on a kernel without BPF cookie support, a
batched (kprobe-multi) prepare sizes the `ip_to_id` table to the accepted
function count (here 2), not to the minimal size 1 the claim reserves for
batched mode — the sizing condition is `use_fentries || !has_bpf_cookie`,
with no reference to the batched/single distinction. -/
theorem ip_to_id_not_minimal_in_batched_mode :
    attP9.use_fentries = false ∧
    attP9.use_kprobe_multi = true ∧
    attP9.has_bpf_cookie = false ∧
    (mass_attacher__prepare envC9 att0C9).2 = none ∧
    attP9.func_infos.length = 2 ∧
    attP9.ip_to_id_max_entries = 2 := by
  decide

theorem ip_to_id_sizing_witness :
    attP9.ip_to_id_max_entries =
      (if attP9.use_fentries || !attP9.has_bpf_cookie then
        attP9.func_infos.length
      else 1) ∧
    (mass_attacher__load envC9 attP9).2.1.filter isMapUpdate =
      (if attP9.use_fentries || !attP9.has_bpf_cookie then
        (List.enumFrom 0 attP9.func_infos).map
          (fun p => KernCall.mapUpdate p.2.addr p.1)
      else []) := by
  have h := ip_to_id_sizing envC9 att0C9 attP9 (by decide)
  exact ⟨h.1, h.2 envC9 (by decide) (by decide)⟩

/-! ## Claim C8: dry-run issues no kernel calls and touches no handles -/

/-- In dry-run mode the attach loop is the identity: every `attach_one` jumps
straight to the logging label (mass_attacher.c:885), issuing no call and
writing no handle field. -/
theorem attachLoop_dry_run (env : Env) (att : MassAttacher)
    (hdry : att.dry_run = true) :
    ∀ fis : List FuncInfo, attachLoop env att fis = (fis, [], none) := by
  intro fis
  induction fis with
  | nil => rfl
  | cons finfo rest ih =>
    rw [attachLoop]
    have h1 : attach_one env att finfo = (finfo, [], none) := by
      unfold attach_one
      rw [hdry]
      simp
    rw [h1, ih]
    rfl

/-- C8: with the dry-run flag set, both load and attach succeed while issuing
zero kernel calls (no skeleton load, no map update, no program clone, no
raw-tracepoint open, no kprobe or batched attach), and the engine state —
including every per-function handle field — is returned unchanged. -/
theorem dry_run_no_kernel_calls (env : Env) (att : MassAttacher)
    (hdry : att.dry_run = true) :
    mass_attacher__load env att = (att, [], none) ∧
    mass_attacher__attach env att = (att, [], none) := by
  constructor
  · unfold mass_attacher__load
    rw [hdry]
    simp
  · unfold mass_attacher__attach
    rw [attachLoop_dry_run env att hdry]
    have hcond : (!att.dry_run && att.use_kprobe_multi) = false := by
      rw [hdry]
      rfl
    simp only [hcond, Bool.false_eq_true, if_false]

/-- A dry-run engine with one accepted function. -/
def attD8 : MassAttacher :=
  { attW with dry_run := true, func_infos := [fiW] }

theorem dry_run_no_kernel_calls_witness :
    mass_attacher__load envW attD8 = (attD8, [], none) ∧
    mass_attacher__attach envW attD8 = (attD8, [], none) :=
  dry_run_no_kernel_calls envW attD8 (by decide)

/-! ## Claim C5: batched attach tries addresses first, falls back once to
symbols -/

/-- The address-based batch-attach option set covering the whole accepted
function set (mass_attacher.c:912-914, 955-959). -/
def entryAddrsSpec (att : MassAttacher) : MultiSpec :=
  .byAddrs (att.func_infos.map (fun f => f.addr))
    (List.range att.func_infos.length)

/-- The symbol-based batch-attach option set over the same function set
(mass_attacher.c:971-972). -/
def entrySymsSpec (att : MassAttacher) : MultiSpec :=
  .bySyms (att.func_infos.map (fun f => f.name))
    (List.range att.func_infos.length)

/-- In batched mode the per-function loop only records addresses and
symbols: it issues no kernel call and leaves every record unchanged. -/
theorem attachLoop_batched (env : Env) (att : MassAttacher)
    (hfent : att.use_fentries = false) (hmulti : att.use_kprobe_multi = true) :
    ∀ fis : List FuncInfo, attachLoop env att fis = (fis, [], none) := by
  intro fis
  induction fis with
  | nil => rfl
  | cons finfo rest ih =>
    rw [attachLoop]
    have h1 : attach_one env att finfo = (finfo, [], none) := by
      unfold attach_one
      rw [hfent, hmulti]
      by_cases hd : att.dry_run = true <;> simp [hd]
    rw [h1, ih]
    rfl

/-- C5: in batched (kprobe-multi) mode, outside dry run, the address-based
batch attach over the whole function set is always the first batch call
issued; when the kernel accepts it no symbol-based attach is ever tried;
when the kernel rejects it exactly one fallback to a symbol-based batch
attach over the same set follows, and only if that is also rejected does
the attach phase report failure — having issued exactly those two
entry-direction batch calls. -/
theorem batched_attach_fallback_once (env : Env) (att : MassAttacher)
    (hdry : att.dry_run = false) (hmulti : att.use_kprobe_multi = true)
    (hfent : att.use_fentries = false) :
    ((mass_attacher__attach env att).2.1.head? =
       some (KernCall.kprobeMulti false (entryAddrsSpec att))) ∧
    (env.kprobe_multi false (entryAddrsSpec att) ≠ none →
       (mass_attacher__attach env att).2.1 =
         [KernCall.kprobeMulti false (entryAddrsSpec att),
          KernCall.kprobeMulti true (entryAddrsSpec att)]) ∧
    (env.kprobe_multi false (entryAddrsSpec att) = none →
     env.kprobe_multi false (entrySymsSpec att) ≠ none →
       (mass_attacher__attach env att).2.1 =
         [KernCall.kprobeMulti false (entryAddrsSpec att),
          KernCall.kprobeMulti false (entrySymsSpec att),
          KernCall.kprobeMulti true (entrySymsSpec att)]) ∧
    (env.kprobe_multi false (entryAddrsSpec att) = none →
     env.kprobe_multi false (entrySymsSpec att) = none →
       (mass_attacher__attach env att).2.1 =
         [KernCall.kprobeMulti false (entryAddrsSpec att),
          KernCall.kprobeMulti false (entrySymsSpec att)] ∧
       (mass_attacher__attach env att).2.2 = some env.errno) := by
  unfold mass_attacher__attach
  rw [attachLoop_batched env att hfent hmulti att.func_infos]
  simp only [entryAddrsSpec, entrySymsSpec]
  cases hA : env.kprobe_multi false
      (MultiSpec.byAddrs (att.func_infos.map (fun f => f.addr))
        (List.range att.func_infos.length)) with
  | some l1 =>
    cases hX : env.kprobe_multi true
        (MultiSpec.byAddrs (att.func_infos.map (fun f => f.addr))
          (List.range att.func_infos.length)) with
    | some l2 => simp [hA, hX, hdry, hmulti]
    | none => simp [hA, hX, hdry, hmulti]
  | none =>
    cases hS : env.kprobe_multi false
        (MultiSpec.bySyms (att.func_infos.map (fun f => f.name))
          (List.range att.func_infos.length)) with
    | some l1 =>
      cases hX : env.kprobe_multi true
          (MultiSpec.bySyms (att.func_infos.map (fun f => f.name))
            (List.range att.func_infos.length)) with
      | some l2 => simp [hA, hS, hX, hdry, hmulti]
      | none => simp [hA, hS, hX, hdry, hmulti]
    | none => simp [hA, hS, hdry, hmulti]

/-- A kernel that rejects address-based batch attach but accepts the
symbol-based one. -/
def envC5 : Env :=
  { envW with kprobe_multi := fun _ spec =>
      match spec with
      | .byAddrs _ _ => none
      | .bySyms _ _ => some 9 }

/-- A batched-mode engine with one accepted function. -/
def attC5 : MassAttacher :=
  { attW with use_kprobe_multi := true, func_infos := [fiW] }

theorem batched_attach_fallback_once_witness :
    (mass_attacher__attach envC5 attC5).2.1 =
      [KernCall.kprobeMulti false (entryAddrsSpec attC5),
       KernCall.kprobeMulti false (entrySymsSpec attC5),
       KernCall.kprobeMulti true (entrySymsSpec attC5)] := by
  have h := batched_attach_fallback_once envC5 attC5
    (by decide) (by decide) (by decide)
  exact h.2.2.1 (by decide) (by decide)

/-! ## Claim C7: the readiness flag is cleared first in teardown and set only
by activate -/

theorem deny_glob_ready (att : MassAttacher) (g : String) (m : Option String) :
    (mass_attacher__deny_glob att g m).1.ready = att.ready := by
  unfold mass_attacher__deny_glob
  repeat' split
  all_goals rfl

theorem addDenyGlobs_ready (gs : List String) :
    ∀ att : MassAttacher, (addDenyGlobs att gs).1.ready = att.ready := by
  induction gs with
  | nil => intro att; rfl
  | cons g gs ih =>
    intro att
    rw [addDenyGlobs]
    cases hd : mass_attacher__deny_glob att g none with
    | mk att2 oe =>
    have h2 : att2.ready = att.ready := by
      have h3 := deny_glob_ready att g none
      rw [hd] at h3
      exact h3
    cases oe with
    | none => exact (ih att2).trans h2
    | some e => exact h2

theorem prepareLoop_ready (env : Env)
    (cands : List (String × Option Nat × Nat)) :
    ∀ att : MassAttacher, (prepareLoop env att cands).1.ready = att.ready := by
  induction cands with
  | nil => intro att; rfl
  | cons c rest ih =>
    intro att
    obtain ⟨name, t, bid⟩ := c
    rw [prepareLoop]
    cases hp : prepare_func env att name t bid with
    | mk att2 oe =>
    have h2 : att2.ready = att.ready := by
      have h3 := (prepare_func_preserves env att name t bid).1
      rw [hp] at h3
      exact h3
    cases oe with
    | none => exact (ih att2).trans h2
    | some e => exact h2

theorem secondPassLoop_ready (env : Env) (idxs : List Nat) :
    ∀ att : MassAttacher, (secondPassLoop env att idxs).1.ready = att.ready := by
  induction idxs with
  | nil => intro att; rfl
  | cons i rest ih =>
    intro att
    rw [secondPassLoop]
    cases hk : att.kprobes[i]? with
    | none => exact ih att
    | some k =>
      by_cases hu : k.used = true
      · simp [hu]
        exact ih att
      · simp [hu]
        cases hp : prepare_func env att k.name none 0 with
        | mk att2 oe =>
        have h2 : att2.ready = att.ready := by
          have h3 := (prepare_func_preserves env att k.name none 0).1
          rw [hp] at h3
          exact h3
        cases oe with
        | none => exact (ih att2).trans h2
        | some e => exact h2

theorem prepare_ready_eq (env : Env) (att0 : MassAttacher) :
    (mass_attacher__prepare env att0).1.ready = att0.ready := by
  unfold mass_attacher__prepare
  split
  · rfl
  · split
    · rename_i att2 e hsd
      have h2 : att2.ready = att0.ready := by
        split at hsd
        · have h := addDenyGlobs_ready sleepable_deny_globs
            (prepare_env_state env att0)
          rw [hsd] at h
          exact h
        · cases hsd
      exact h2
    · rename_i att2 hsd
      have h2 : att2.ready = att0.ready := by
        split at hsd
        · have h := addDenyGlobs_ready sleepable_deny_globs
            (prepare_env_state env att0)
          rw [hsd] at h
          exact h
        · cases hsd
          rfl
      split
      · rename_i att4 e2 hpl
        have h := prepareLoop_ready env
          (env.btf_funcs.map (fun nb => (nb.1, some nb.2, nb.2)))
          (prepare_with_kprobes env att2)
        rw [hpl] at h
        exact h.trans h2
      · rename_i att4 hpl
        have h4 : att4.ready = att0.ready := by
          have h := prepareLoop_ready env
            (env.btf_funcs.map (fun nb => (nb.1, some nb.2, nb.2)))
            (prepare_with_kprobes env att2)
          rw [hpl] at h
          exact h.trans h2
        split
        · rename_i att5 e3 hsp
          have h5 : att5.ready = att0.ready := by
            split at hsp
            · have h := secondPassLoop_ready env
                (List.range att4.kprobes.length) att4
              rw [hsp] at h
              exact h.trans h4
            · cases hsp
          exact h5
        · rename_i att5 hsp
          have h5 : att5.ready = att0.ready := by
            split at hsp
            · have h := secondPassLoop_ready env
                (List.range att4.kprobes.length) att4
              rw [hsp] at h
              exact h.trans h4
            · cases hsp
              exact h4
          split
          · exact h5
          · simpa using h5

theorem load_ready (env : Env) (att : MassAttacher) :
    (mass_attacher__load env att).1.ready = att.ready := by
  unfold mass_attacher__load
  repeat' split
  all_goals rfl

theorem attach_ready (env : Env) (att : MassAttacher) :
    (mass_attacher__attach env att).1.ready = att.ready := by
  unfold mass_attacher__attach
  cases hl : attachLoop env att att.func_infos with
  | mk infos2 pc =>
  cases pc with
  | mk calls res =>
  cases res with
  | some e => rfl
  | none =>
    simp only
    repeat' split
    all_goals rfl

/-- C7: the readiness flag observed by the probe programs is cleared as the
very first teardown action, before any handle release; it starts out false
at construction, is set by activate, and is left untouched by prepare, load
and attach. -/
theorem ready_flag_discipline (env : Env) (opts : Option Opts)
    (a att : MassAttacher) :
    (mass_attacher__free (some a)).1.head? = some FreeEvent.clearReady ∧
    (mass_attacher__activate att).ready = true ∧
    (mass_attacher__new opts).1.ready = false ∧
    (mass_attacher__prepare env att).1.ready = att.ready ∧
    (mass_attacher__load env att).1.ready = att.ready ∧
    (mass_attacher__attach env att).1.ready = att.ready := by
  refine ⟨rfl, rfl, ?_, prepare_ready_eq env att, load_ready env att,
    attach_ready env att⟩
  cases opts with
  | none => rfl
  | some o => exact addDenyGlobs_ready enforced_deny_globs (initAttacher o)

/-! ## Claim C6: teardown releases every acquired handle and is double-free
safe -/

/-- Whether a given handle exists in an engine state: the guards
`mass_attacher__free` checks before releasing. -/
def handlePresent (a : MassAttacher) : Handle → Bool
  | .kentryMulti => a.kentry_multi_link.isSome
  | .kexitMulti => a.kexit_multi_link.isSome
  | .funcKentryLink i =>
    match a.func_infos[i]? with
    | some fi => fi.kentry_link.isSome
    | none => false
  | .funcKexitLink i =>
    match a.func_infos[i]? with
    | some fi => fi.kexit_link.isSome
    | none => false
  | .funcEntryLinkFd i =>
    match a.func_infos[i]? with
    | some fi => decide (0 < fi.fentry_link_fd)
    | none => false
  | .funcExitLinkFd i =>
    match a.func_infos[i]? with
    | some fi => decide (0 < fi.fexit_link_fd)
    | none => false

theorem mem_optEvent {α : Type} (o : Option α) (ev e : FreeEvent) :
    e ∈ optEvent o ev ↔ (o.isSome = true ∧ e = ev) := by
  cases o <;> simp [optEvent]

theorem mem_funcFreeEvents (fis : List FuncInfo) (e : FreeEvent) :
    e ∈ funcFreeEvents fis ↔
      ∃ i : Nat, ∃ fi, fis[i]? = some fi ∧
        ((fi.kentry_link.isSome = true ∧
            e = .linkRelease (.funcKentryLink i)) ∨
         (fi.kexit_link.isSome = true ∧
            e = .linkRelease (.funcKexitLink i)) ∨
         (0 < fi.fentry_link_fd ∧ e = .linkRelease (.funcEntryLinkFd i)) ∨
         (0 < fi.fexit_link_fd ∧ e = .linkRelease (.funcExitLinkFd i))) := by
  unfold funcFreeEvents
  rw [List.mem_flatMap]
  constructor
  · rintro ⟨i, hi, hmem⟩
    rw [List.mem_range] at hi
    cases hfi : fis[i]? with
    | none =>
      rw [hfi] at hmem
      simp at hmem
    | some fi =>
      rw [hfi] at hmem
      refine ⟨i, fi, hfi, ?_⟩
      simp only [List.mem_append, mem_optEvent] at hmem
      rcases hmem with ((⟨h1, h2⟩ | ⟨h1, h2⟩) | h1) | h1
      · exact Or.inl ⟨h1, h2⟩
      · exact Or.inr (Or.inl ⟨h1, h2⟩)
      · split at h1
        · rename_i hgt
          simp at h1
          exact Or.inr (Or.inr (Or.inl ⟨hgt, h1⟩))
        · simp at h1
      · split at h1
        · rename_i hgt
          simp at h1
          exact Or.inr (Or.inr (Or.inr ⟨hgt, h1⟩))
        · simp at h1
  · rintro ⟨i, fi, hfi, hcase⟩
    have hlt : i < fis.length := by
      by_contra hge
      rw [List.getElem?_eq_none (by omega)] at hfi
      cases hfi
    refine ⟨i, List.mem_range.mpr hlt, ?_⟩
    rw [hfi]
    simp only [List.mem_append, mem_optEvent]
    rcases hcase with ⟨h1, h2⟩ | ⟨h1, h2⟩ | ⟨h1, h2⟩ | ⟨h1, h2⟩
    · exact Or.inl (Or.inl (Or.inl ⟨h1, h2⟩))
    · exact Or.inl (Or.inl (Or.inr ⟨h1, h2⟩))
    · refine Or.inl (Or.inr ?_)
      rw [if_pos h1]
      simp [h2]
    · refine Or.inr ?_
      rw [if_pos h1]
      simp [h2]

theorem mem_insnsFreeEvents (att : MassAttacher) (e : FreeEvent)
    (h : e ∈ insnsFreeEvents att) : ∃ d s, e = .insnsFree d s := by
  unfold insnsFreeEvents at h
  rw [List.mem_flatMap] at h
  obtain ⟨i, _, h⟩ := h
  simp only [List.mem_append, mem_optEvent] at h
  rcases h with (⟨_, rfl⟩ | ⟨_, rfl⟩) | ⟨_, rfl⟩ <;> exact ⟨_, _, rfl⟩

theorem mem_kprobesBlock (a : MassAttacher) (e : FreeEvent)
    (h : e ∈ (if a.kprobes.isEmpty then ([] : List FreeEvent)
              else (List.range a.kprobes.length).map FreeEvent.kprobeNameFree ++
                   [FreeEvent.kprobesArrFree])) :
    (∃ i, e = .kprobeNameFree i) ∨ e = .kprobesArrFree := by
  split at h
  · simp at h
  · simp only [List.mem_append, List.mem_map, List.mem_range] at h
    rcases h with ⟨i, _, rfl⟩ | h
    · exact Or.inl ⟨i, rfl⟩
    · simp at h
      exact Or.inr h

/-- The teardown trace, reshaped to expose that `SKEL_DESTROY` is the single
final action. -/
theorem free_trace_shape (a : MassAttacher) :
    (mass_attacher__free (some a)).1 =
      (FreeEvent.clearReady ::
        (optEvent a.vmlinux_btf .btfFree ++
         optEvent a.kentry_multi_link (.linkRelease .kentryMulti) ++
         optEvent a.kexit_multi_link (.linkRelease .kexitMulti) ++
         funcFreeEvents a.func_infos ++
         [FreeEvent.funcInfosFree] ++
         (if a.kprobes.isEmpty then []
          else (List.range a.kprobes.length).map FreeEvent.kprobeNameFree ++
               [FreeEvent.kprobesArrFree]) ++
         insnsFreeEvents a)) ++ [FreeEvent.skelDestroy] := by
  simp [mass_attacher__free, List.append_assoc]

/-- A link-release event appears in the teardown trace exactly when the
corresponding handle is present in the engine state. -/
theorem linkRelease_mem_free (a : MassAttacher) (h : Handle) :
    FreeEvent.linkRelease h ∈ (mass_attacher__free (some a)).1 ↔
      handlePresent a h = true := by
  constructor
  · intro hm
    simp only [mass_attacher__free, List.mem_cons, List.mem_append] at hm
    rcases hm with h0 | hm
    · cases h0
    rcases hm with ((((((hm1 | hm2) | hm3) | hm4) | hm5) | hm6) | hm7) | hm8
    · rw [mem_optEvent] at hm1
      cases hm1.2
    · rw [mem_optEvent] at hm2
      obtain ⟨hs, he⟩ := hm2
      injection he with hh
      subst hh
      exact hs
    · rw [mem_optEvent] at hm3
      obtain ⟨hs, he⟩ := hm3
      injection he with hh
      subst hh
      exact hs
    · rw [mem_funcFreeEvents] at hm4
      obtain ⟨i, fi, hfi, hc⟩ := hm4
      rcases hc with ⟨h1, h2⟩ | ⟨h1, h2⟩ | ⟨h1, h2⟩ | ⟨h1, h2⟩ <;>
        (injection h2 with hh; subst hh;
         simp [handlePresent, hfi, h1])
    · simp at hm5
    · rcases mem_kprobesBlock a _ hm6 with ⟨i, he⟩ | he <;> cases he
    · obtain ⟨d, sl, he⟩ := mem_insnsFreeEvents a _ hm7
      cases he
    · simp at hm8
  · intro hp
    cases h with
    | kentryMulti =>
      simp only [handlePresent] at hp
      obtain ⟨l, hl⟩ := Option.isSome_iff_exists.mp hp
      simp [mass_attacher__free, optEvent, hl]
    | kexitMulti =>
      simp only [handlePresent] at hp
      obtain ⟨l, hl⟩ := Option.isSome_iff_exists.mp hp
      simp [mass_attacher__free, optEvent, hl]
    | funcKentryLink i =>
      simp only [handlePresent] at hp
      cases hfi : a.func_infos[i]? with
      | none =>
        rw [hfi] at hp
        cases hp
      | some fi =>
        rw [hfi] at hp
        have hmem := (mem_funcFreeEvents a.func_infos
            (.linkRelease (.funcKentryLink i))).mpr
          ⟨i, fi, hfi, Or.inl ⟨hp, rfl⟩⟩
        simp only [mass_attacher__free, List.mem_cons, List.mem_append]
        tauto
    | funcKexitLink i =>
      simp only [handlePresent] at hp
      cases hfi : a.func_infos[i]? with
      | none =>
        rw [hfi] at hp
        cases hp
      | some fi =>
        rw [hfi] at hp
        have hmem := (mem_funcFreeEvents a.func_infos
            (.linkRelease (.funcKexitLink i))).mpr
          ⟨i, fi, hfi, Or.inr (Or.inl ⟨hp, rfl⟩)⟩
        simp only [mass_attacher__free, List.mem_cons, List.mem_append]
        tauto
    | funcEntryLinkFd i =>
      simp only [handlePresent] at hp
      cases hfi : a.func_infos[i]? with
      | none =>
        rw [hfi] at hp
        cases hp
      | some fi =>
        rw [hfi] at hp
        have hmem := (mem_funcFreeEvents a.func_infos
            (.linkRelease (.funcEntryLinkFd i))).mpr
          ⟨i, fi, hfi, Or.inr (Or.inr (Or.inl ⟨of_decide_eq_true hp, rfl⟩))⟩
        simp only [mass_attacher__free, List.mem_cons, List.mem_append]
        tauto
    | funcExitLinkFd i =>
      simp only [handlePresent] at hp
      cases hfi : a.func_infos[i]? with
      | none =>
        rw [hfi] at hp
        cases hp
      | some fi =>
        rw [hfi] at hp
        have hmem := (mem_funcFreeEvents a.func_infos
            (.linkRelease (.funcExitLinkFd i))).mpr
          ⟨i, fi, hfi, Or.inr (Or.inr (Or.inr ⟨of_decide_eq_true hp, rfl⟩))⟩
        simp only [mass_attacher__free, List.mem_cons, List.mem_append]
        tauto

/-- C6: teardown on a live engine releases exactly the handles that exist —
a batched or per-function link-release event appears in the teardown trace
iff that handle is present in the state — the skeleton (owner of the
programs) is destroyed by the single, final action, after every link
release; teardown of a NULL engine is a no-op; and since free always yields
a NULL engine, a second free is also a no-op. -/
theorem teardown_releases_exactly_acquired (a : MassAttacher) :
    (∀ h : Handle,
       FreeEvent.linkRelease h ∈ (mass_attacher__free (some a)).1 ↔
         handlePresent a h = true) ∧
    (mass_attacher__free (some a)).1.getLast? = some FreeEvent.skelDestroy ∧
    FreeEvent.skelDestroy ∉ (mass_attacher__free (some a)).1.dropLast ∧
    mass_attacher__free none = ([], none) ∧
    (∀ x : Option MassAttacher,
       mass_attacher__free (mass_attacher__free x).2 = ([], none)) := by
  refine ⟨linkRelease_mem_free a, ?_, ?_, rfl, ?_⟩
  · rw [free_trace_shape]
    exact List.getLast?_concat _
  · rw [free_trace_shape, List.dropLast_concat]
    intro hm
    simp only [List.mem_cons, List.mem_append] at hm
    rcases hm with h0 | hm
    · cases h0
    rcases hm with (((((hm1 | hm2) | hm3) | hm4) | hm5) | hm6) | hm7
    · rw [mem_optEvent] at hm1
      cases hm1.2
    · rw [mem_optEvent] at hm2
      cases hm2.2
    · rw [mem_optEvent] at hm3
      cases hm3.2
    · rw [mem_funcFreeEvents] at hm4
      obtain ⟨i, fi, hfi, hc⟩ := hm4
      rcases hc with ⟨h1, h2⟩ | ⟨h1, h2⟩ | ⟨h1, h2⟩ | ⟨h1, h2⟩ <;> cases h2
    · simp at hm5
    · rcases mem_kprobesBlock a _ hm6 with ⟨i, he⟩ | he <;> cases he
    · obtain ⟨d, sl, he⟩ := mem_insnsFreeEvents a _ hm7
      cases he
  · intro x
    cases x <;> rfl

end MassAttach
